import Mathlib

/-!
# getad-noip relay: registry, gatekeeper and router of `main.go`

A shallow embedding of `wsHandler` (src/main.go).  Every accepted connection
runs one router loop; one iteration of that loop (one message read and
handled, together with the deferred cleanup when the handler returns) is one
atomic step of the model, and a run is any interleaving of such steps of any
connections.  Connections are identified by a number, Go maps are association
lists with unique keys, `time.Time` is a number of nanoseconds counted from
Go's zero time, and every `WriteJSON` call is recorded as a pair (destination
connection, message); whether a write reaches its peer is not modelled.  The
file written by `savePasswords` is not modelled either: the credential table
is the in-memory map `passwords`, loaded once by `loadPasswords`.
-/

namespace Relay

/-! ## Go maps keyed by strings -/

/-- Go `m[k]` with the comma-ok result: the value stored under `k`, if any. -/
def mapGet {α : Type} : List (String × α) → String → Option α
  | [], _ => none
  | (k', v) :: t, k => if k' = k then some v else mapGet t k

/-- Go `m[k] = v`: overwrite the entry of `k` where it stands, or add one. -/
def mapSet {α : Type} : List (String × α) → String → α → List (String × α)
  | [], k, v => [(k, v)]
  | (k', v') :: t, k, v => if k' = k then (k, v) :: t else (k', v') :: mapSet t k v

/-- Go `delete(m, k)`. -/
def mapDel {α : Type} : List (String × α) → String → List (String × α)
  | [], _ => []
  | (k', v') :: t, k => if k' = k then mapDel t k else (k', v') :: mapDel t k

/-! ## Data model (main.go lines 14-53) -/

/-- The `Peer` struct; `Conn` is the identity of the websocket connection
    (the mutex `Mu` carries no data). -/
structure Peer where
  ID : String
  Role : String
  Conn : Nat
  deriving DecidableEq, Repr

/-- The `Message` struct; a field left out of a Go composite literal has its
    zero value, here the default. `MsgType` is the field `Type` (a reserved word
    here) and `Result` is the opaque JSON mapping. -/
structure Message where
  MsgType : String := ""
  ClientID : String := ""
  CommandID : String := ""
  Command : String := ""
  Prompt : String := ""
  Result : List (String × String) := []
  Role : String := ""
  ID : String := ""
  Password : String := ""
  Error : String := ""
  deriving DecidableEq, Repr

/-- The `AuthState` struct: failed attempts (Go `int`) and the end of the lockout. -/
structure AuthState where
  Attempts : Int := 0
  Blocked : Nat := 0
  deriving DecidableEq, Repr

/-- `time.Minute`, in nanoseconds. -/
def minute : Nat := 60 * 1000000000

/-- Go `x++` on a 64-bit `int`. -/
def incInt (x : Int) : Int :=
  if x + 1 > 9223372036854775807 then x + 1 - 18446744073709551616 else x + 1

/-- The variables local to one run of `wsHandler` (lines 74-75), and whether
    that run has ended (`conn.Close()`, line 111). -/
structure ConnLocal where
  authenticated : Bool := false
  peer : Option Peer := none
  closed : Bool := false
  deriving DecidableEq, Repr

/-- The package-level variables (lines 46-51) and the locals of every connection. -/
structure World where
  admins : List (String × Peer) := []
  clients : List (String × Peer) := []
  passwords : List (String × String) := []
  authState : List (String × AuthState) := []
  conns : Nat → ConnLocal := fun _ => {}

/-- One `WriteJSON` call: the connection written to and the message. -/
abbrev Sent := Nat × Message

/-- What handling one message yields: the new state, the writes made, in order,
    and whether the handler executed `return` (ending the loop). -/
structure Outcome where
  world : World
  sent : List Sent := []
  returned : Bool := false

/-- Replace the locals of connection `c`. -/
def setConn (s : World) (c : Nat) (l : ConnLocal) : World :=
  { s with conns := fun c' => if c' = c then l else s.conns c' }

/-! ## The router loop body (lines 120-289) -/

/-- The `case "auth"` branch of `wsHandler` (lines 124-160). `now` is the clock reading of
    line 132 and `now2` the one of line 144. -/
def handleAuth (s : World) (c : Nat) (msg : Message) (now now2 : Nat) : Outcome :=
  let state : AuthState := (mapGet s.authState msg.ClientID).getD {}
  let authState1 := match mapGet s.authState msg.ClientID with
    | none => mapSet s.authState msg.ClientID state
    | some _ => s.authState
  if now < state.Blocked then
    { world := { s with authState := authState1 }
      sent := [(c, { MsgType := "auth_fail", Error := "Тайм-аут 1 минута" })] }
  else if (mapGet s.passwords msg.ClientID).getD "" ≠ msg.Password then
    let attempts := incInt state.Attempts
    let state1 : AuthState :=
      if attempts ≥ 3 then { Attempts := 0, Blocked := now2 + minute }
      else { state with Attempts := attempts }
    { world := { s with authState := mapSet authState1 msg.ClientID state1 }
      sent := [(c, { MsgType := "auth_fail", Error := "Неверный логин или пароль" })] }
  else
    let state1 : AuthState := { state with Attempts := 0 }
    { world := setConn { s with authState := mapSet authState1 msg.ClientID state1 } c
        { s.conns c with authenticated := true }
      sent := [(c, { MsgType := "auth_ok" })] }

/-- The `case "register"` branch of `wsHandler` (lines 164-199). -/
def handleRegister (s : World) (c : Nat) (msg : Message) : Outcome :=
  if msg.Role = "admin" ∧ (s.conns c).authenticated = false then
    { world := s
      sent := [(c, { MsgType := "auth_fail", Error := "Admin not authenticated" })]
      returned := true }
  else
    let peer : Peer := { ID := msg.ID, Role := msg.Role, Conn := c }
    let s1 := setConn s c { s.conns c with peer := some peer }
    if peer.Role = "admin" then
      { world := { s1 with admins := mapSet s.admins peer.ID peer }
        sent := s.clients.map fun e => (e.2.Conn, { MsgType := "admin_attach", ID := peer.ID }) }
    else
      { world := { s1 with clients := mapSet s.clients peer.ID peer } }

/-- The `case "client_hello"` branch of `wsHandler` (lines 203-240). -/
def handleClientHello (s : World) (c : Nat) (msg : Message) : Outcome :=
  let accept (passwords1 : List (String × String)) : Outcome :=
    let peer : Peer := { ID := msg.ID, Role := "client", Conn := c }
    let s1 := setConn { s with passwords := passwords1 } c { s.conns c with peer := some peer }
    { world := { s1 with clients := mapSet s.clients peer.ID peer }
      sent := s.admins.map fun e => (c, { MsgType := "admin_attach", ID := e.2.ID }) }
  match mapGet s.passwords msg.ID with
  | none => accept (mapSet s.passwords msg.ID msg.Password)
  | some stored =>
    if stored ≠ msg.Password then { world := s, returned := true }
    else accept s.passwords

/-- The `case "command", "interactive_response"` branch of `wsHandler` (lines 244-259). -/
def handleCommand (s : World) (msg : Message) : Outcome :=
  match mapGet s.clients msg.ClientID with
  | some client =>
    { world := s
      sent := [(client.Conn, { MsgType := msg.MsgType, ClientID := msg.ClientID,
                               CommandID := msg.CommandID, Command := msg.Command,
                               ID := msg.ID })] }
  | none => { world := s }

/-- The `case "interactive_prompt", "result"` branch of `wsHandler` (lines 261-272). -/
def handleResult (s : World) (msg : Message) : Outcome :=
  match mapGet s.admins msg.ID with
  | some admin => { world := s, sent := [(admin.Conn, msg)] }
  | none => { world := s }

/-- The `case "session_closed"` branch of `wsHandler` (lines 274-288). -/
def handleSessionClosed (s : World) (msg : Message) : Outcome :=
  match mapGet s.admins msg.ID with
  | some admin =>
    { world := s
      sent := [(admin.Conn, { MsgType := "session_closed",
                              Error := "CMD session terminated on client" })] }
  | none => { world := s }

/-- The `switch msg.Type` of the loop body of `wsHandler` (lines 120-289); a type with no
    case is ignored. -/
def handle (s : World) (c : Nat) (msg : Message) (now now2 : Nat) : Outcome :=
  if msg.MsgType = "auth" then handleAuth s c msg now now2
  else if msg.MsgType = "register" then handleRegister s c msg
  else if msg.MsgType = "client_hello" then handleClientHello s c msg
  else if msg.MsgType = "command" ∨ msg.MsgType = "interactive_response" then handleCommand s msg
  else if msg.MsgType = "interactive_prompt" ∨ msg.MsgType = "result" then handleResult s msg
  else if msg.MsgType = "session_closed" then handleSessionClosed s msg
  else { world := s }

/-- The deferred function of `wsHandler` (lines 77-112), run when the loop of `c` ends. -/
def cleanup (s : World) (c : Nat) : World × List Sent :=
  let closeConn (w : World) : World := setConn w c { w.conns c with closed := true }
  match (s.conns c).peer with
  | none => (closeConn s, [])
  | some peer =>
    let sent1 : List Sent :=
      if peer.Role = "admin" then
        s.clients.map fun e => (e.2.Conn, { MsgType := "admin_detach", ID := peer.ID })
      else []
    let s1 : World :=
      if peer.Role = "admin" then { s with admins := mapDel s.admins peer.ID } else s
    let sent2 : List Sent :=
      if peer.Role = "client" then
        s1.admins.map fun e =>
          (e.2.Conn,
            { MsgType := "session_closed", ClientID := peer.ID, Error := "Client disconnected" })
      else []
    let s2 : World :=
      if peer.Role = "client" then { s1 with clients := mapDel s1.clients peer.ID } else s1
    (closeConn s2, sent1 ++ sent2)

/-! ## Steps and runs -/

/-- What can happen to the system: the loop of connection `c` reads a message
    (with the two clock readings an `auth` may take), or its read fails. -/
inductive Event where
  | recv (c : Nat) (msg : Message) (now now2 : Nat)
  | disconnect (c : Nat)

/-- One iteration of the loop of `wsHandler` on a connection (lines 114-290) with the
    deferred cleanup when it ends; a connection whose loop has ended does
    nothing more. -/
def step (s : World) : Event → World × List Sent
  | .recv c msg now now2 =>
    if (s.conns c).closed then (s, [])
    else
      let o := handle s c msg now now2
      if o.returned then
        let r := cleanup o.world c
        (r.1, o.sent ++ r.2)
      else (o.world, o.sent)
  | .disconnect c =>
    if (s.conns c).closed then (s, []) else cleanup s c

/-- The state after a sequence of events. -/
def run (s : World) : List Event → World
  | [] => s
  | e :: es => run (step s e).1 es

/-- The state at process start: empty registry and attempt records, the
    credential table as loaded by `loadPasswords`, no connection yet served. -/
def initWorld (passwords : List (String × String)) : World :=
  { passwords := passwords }

/-- States the server can be in: those some run from a start state leads to. -/
def Reachable (s : World) : Prop :=
  ∃ passwords es, s = run (initWorld passwords) es

/-! ## Values the statements speak of -/

/-- The message `handleCommand` writes to the worker (lines 251-257): a fresh
    `Message` holding five fields of the incoming one. -/
def forwardedCommand (msg : Message) : Message :=
  { MsgType := msg.MsgType, ClientID := msg.ClientID, CommandID := msg.CommandID,
    Command := msg.Command, ID := msg.ID }

/-- The attempt record `auth` works on for identity `k` (lines 126-130): the
    stored one, or a fresh zero record when there is none. -/
def authRecord (s : World) (k : String) : AuthState :=
  (mapGet s.authState k).getD {}

/-- The password `auth` compares with for identity `k` (line 141): Go's map
    read, the empty string when `k` has no entry. -/
def storedPassword (s : World) (k : String) : String :=
  (mapGet s.passwords k).getD ""

/-- The event is an `auth` message of identity `k`. -/
def Event.authFor (k : String) : Event → Prop
  | .recv _ msg _ _ => msg.MsgType = "auth" ∧ msg.ClientID = k
  | .disconnect _ => False

/-- The clock reading at which the message of an event is checked (line 132). -/
def Event.time : Event → Nat
  | .recv _ _ now _ => now
  | .disconnect _ => 0

/-- The text of the `auth_fail` sent while a lockout is active (line 136). -/
def lockoutReply : Message :=
  { MsgType := "auth_fail", Error := "Тайм-аут 1 минута" }

/-- The text of the `auth_fail` sent for a password mismatch (line 151). -/
def mismatchReply : Message :=
  { MsgType := "auth_fail", Error := "Неверный логин или пароль" }

/-- The secret check of `client_hello` (lines 206-216) passes: the identity
    has no secret yet, or the one presented is the one stored. -/
def secretAccepted (s : World) (msg : Message) : Prop :=
  mapGet s.passwords msg.ID = none ∨ mapGet s.passwords msg.ID = some msg.Password

instance (s : World) (msg : Message) : Decidable (secretAccepted s msg) := by
  unfold secretAccepted
  infer_instance

/-- The state once connection `c` holds `peer` in its local variable. -/
def withPeer (s : World) (c : Nat) (peer : Peer) : World :=
  setConn s c { s.conns c with peer := some peer }

/-- An `auth` read from connection `c` was answered with `auth_ok` somewhere
    in the run `es` that starts in `s0`. -/
def AuthSucceededIn (s0 : World) (es : List Event) (c : Nat) : Prop :=
  ∃ es1 msg now now2 es2, es = es1 ++ Event.recv c msg now now2 :: es2 ∧
    msg.MsgType = "auth" ∧
    (step (run s0 es1) (Event.recv c msg now now2)).2 = [(c, { MsgType := "auth_ok" })]

/-- The event is a registration, by `register` or by `client_hello`, for id `k`. -/
def Event.registers (k : String) : Event → Prop
  | .recv _ msg _ _ => (msg.MsgType = "register" ∨ msg.MsgType = "client_hello") ∧ msg.ID = k
  | .disconnect _ => False

/-- The connection whose loop an event belongs to. -/
def Event.conn : Event → Nat
  | .recv c _ _ _ => c
  | .disconnect c => c

/-- Every registry entry is keyed by the id of its peer, sits in the mapping of
    its role, and refers to a connection that has completed a registration
    (and, for a controller, has authenticated). -/
def RegistryWellFormed (s : World) : Prop :=
  (∀ k p, mapGet s.admins k = some p →
    p.ID = k ∧ p.Role = "admin" ∧ (s.conns p.Conn).peer ≠ none ∧
    (s.conns p.Conn).authenticated = true) ∧
  (∀ k p, mapGet s.clients k = some p →
    p.ID = k ∧ p.Role ≠ "admin" ∧ (s.conns p.Conn).peer ≠ none)

/-- The first half of the `client_hello` branch of `wsHandler` (lines 205-218,
    under `authMu`): the secret check, which provisions the secret of an id
    that has none; `none` when the branch returns (line 215). -/
def helloCheck (s : World) (msg : Message) : Option World :=
  match mapGet s.passwords msg.ID with
  | none => some { s with passwords := mapSet s.passwords msg.ID msg.Password }
  | some stored => if stored ≠ msg.Password then none else some s

/-- The second half of the `client_hello` branch of `wsHandler` (lines
    220-240): the sender becomes the worker of its id and is told of every
    controller. -/
def helloRegister (s : World) (c : Nat) (msg : Message) : Outcome :=
  let peer : Peer := { ID := msg.ID, Role := "client", Conn := c }
  let s1 := setConn s c { s.conns c with peer := some peer }
  { world := { s1 with clients := mapSet s.clients peer.ID peer }
    sent := s.admins.map fun e => (c, { MsgType := "admin_attach", ID := e.2.ID }) }

/-- A `client_hello` for id `k` carrying the secret `v` was read while `k` had
    no secret, somewhere in the run `es` that starts in `s0`. -/
def ProvisionedIn (s0 : World) (es : List Event) (k v : String) : Prop :=
  ∃ es1 c msg now now2 es2, es = es1 ++ Event.recv c msg now now2 :: es2 ∧
    msg.MsgType = "client_hello" ∧ msg.ID = k ∧ msg.Password = v ∧
    mapGet (run s0 es1).passwords k = none ∧ ((run s0 es1).conns c).closed = false

/-- No key occurs twice in the list that stands for a Go map. -/
def keysUnique {α : Type} (m : List (String × α)) : Prop :=
  (m.map Prod.fst).Nodup

/-- The `admin_attach` notification for controller `k` (lines 188-191, 235-238). -/
def adminAttach (k : String) : Message :=
  { MsgType := "admin_attach", ID := k }

/-- The `session_closed` notification for worker `k` (lines 97-101). -/
def sessionClosed (k : String) : Message :=
  { MsgType := "session_closed", ClientID := k, Error := "Client disconnected" }

/-! ## Concrete messages and states used as examples -/

/-- An `auth` message of identity `k` (sent both as `client_id` and as `id`). -/
def authMsg (k pw : String) : Message :=
  { MsgType := "auth", ClientID := k, ID := k, Password := pw }

/-- A `client_hello` message. -/
def helloMsg (k secret : String) : Message :=
  { MsgType := "client_hello", ID := k, Password := secret }

/-- A `register` message. -/
def registerMsg (k role : String) : Message :=
  { MsgType := "register", ID := k, Role := role }

/-- A server whose table holds the password of controller `a`, after worker
    `w` said hello on connection 1 and controller `a` authenticated and
    registered on connection 2. -/
def demoWorld : World :=
  run (initWorld [("a", "pw")])
    [.recv 1 (helloMsg "w" "s") 10 10, .recv 2 (authMsg "a" "pw") 20 20,
     .recv 2 (registerMsg "a" "admin") 30 30]

/-- A `command` for worker `w` that names controller `b` as its origin and
    carries a prompt. -/
def demoCommand : Message :=
  { MsgType := "command", ClientID := "w", CommandID := "c1", Command := "ls",
    Prompt := "p", ID := "b" }

/-- A `result` addressed to controller `a`. -/
def demoResult : Message :=
  { MsgType := "result", ClientID := "w", CommandID := "c1", Result := [("out", "ok")],
    ID := "a" }

/-- A state in which controller `a` has two failed attempts on record and a
    lockout that ended at time 50. -/
def afterLockoutWorld : World :=
  { passwords := [("a", "pw")], authState := [("a", { Attempts := 2, Blocked := 50 })] }

/-- A state in which controller `a` is locked out until time 100. -/
def lockedWorld : World :=
  { passwords := [("a", "pw")], authState := [("a", { Attempts := 0, Blocked := 100 })] }

/-! ## Lemmas on maps -/

theorem mapGet_mapSet {α : Type} (m : List (String × α)) (k k' : String) (v : α) :
    mapGet (mapSet m k v) k' = if k = k' then some v else mapGet m k' := by
  induction m with
  | nil => simp [mapSet, mapGet]
  | cons e t ih =>
    obtain ⟨a, b⟩ := e
    by_cases h : a = k
    · subst h
      by_cases h' : a = k' <;> simp [mapSet, mapGet, h']
    · by_cases h' : a = k'
      · subst h'
        simp [mapSet, mapGet, h, Ne.symm h]
      · simp [mapSet, mapGet, h, h', ih]

theorem mapGet_mapSet_self {α : Type} (m : List (String × α)) (k : String) (v : α) :
    mapGet (mapSet m k v) k = some v := by
  simp [mapGet_mapSet]

theorem mapGet_mapSet_ne {α : Type} (m : List (String × α)) {k k' : String} (v : α)
    (h : k ≠ k') : mapGet (mapSet m k v) k' = mapGet m k' := by
  simp [mapGet_mapSet, h]

theorem mapGet_mapDel {α : Type} (m : List (String × α)) (k k' : String) :
    mapGet (mapDel m k) k' = if k = k' then none else mapGet m k' := by
  induction m with
  | nil => simp [mapDel, mapGet]
  | cons e t ih =>
    obtain ⟨a, b⟩ := e
    by_cases h : a = k
    · subst h
      by_cases h' : a = k'
      · subst h'
        simpa [mapDel] using ih
      · simp [mapDel, mapGet, h', ih]
    · by_cases h' : a = k'
      · subst h'
        simp [mapDel, mapGet, h, Ne.symm h]
      · simp [mapDel, mapGet, h, h', ih]

theorem mapGet_mapDel_some {α : Type} (m : List (String × α)) {k k' : String} {v : α}
    (h : mapGet (mapDel m k) k' = some v) : mapGet m k' = some v := by
  rw [mapGet_mapDel] at h
  by_cases hk : k = k'
  · simp [hk] at h
  · simpa [hk] using h

/-- Writing back the value a key already holds leaves the map as it was. -/
theorem mapSet_same {α : Type} (m : List (String × α)) (k : String) (v : α)
    (h : mapGet m k = some v) : mapSet m k v = m := by
  induction m with
  | nil => simp [mapGet] at h
  | cons e t ih =>
    obtain ⟨a, b⟩ := e
    by_cases hk : a = k
    · subst hk
      simp [mapGet] at h
      simp [mapSet, h]
    · simp [mapGet, hk] at h
      simp [mapSet, hk, ih h]

/-! ## Lemmas on the dispatch -/

theorem handle_result (s : World) (c : Nat) (msg : Message) (now now2 : Nat)
    (hty : msg.MsgType = "result" ∨ msg.MsgType = "interactive_prompt") :
    handle s c msg now now2 = handleResult s msg := by
  rcases hty with h | h <;> simp [handle, h]

theorem handle_command (s : World) (c : Nat) (msg : Message) (now now2 : Nat)
    (hty : msg.MsgType = "command" ∨ msg.MsgType = "interactive_response") :
    handle s c msg now now2 = handleCommand s msg := by
  rcases hty with h | h <;> simp [handle, h]

theorem handle_register (s : World) (c : Nat) (msg : Message) (now now2 : Nat)
    (hty : msg.MsgType = "register") :
    handle s c msg now now2 = handleRegister s c msg := by
  simp [handle, hty]

theorem handle_client_hello (s : World) (c : Nat) (msg : Message) (now now2 : Nat)
    (hty : msg.MsgType = "client_hello") :
    handle s c msg now now2 = handleClientHello s c msg := by
  simp [handle, hty]

theorem handle_auth (s : World) (c : Nat) (msg : Message) (now now2 : Nat)
    (hty : msg.MsgType = "auth") :
    handle s c msg now now2 = handleAuth s c msg now now2 := by
  simp [handle, hty]

theorem handleResult_world (s : World) (msg : Message) : (handleResult s msg).world = s := by
  unfold handleResult
  cases mapGet s.admins msg.ID <;> rfl

theorem handleResult_returned (s : World) (msg : Message) :
    (handleResult s msg).returned = false := by
  unfold handleResult
  cases mapGet s.admins msg.ID <;> rfl

theorem handleCommand_world (s : World) (msg : Message) : (handleCommand s msg).world = s := by
  unfold handleCommand
  cases mapGet s.clients msg.ClientID <;> rfl

theorem handleCommand_returned (s : World) (msg : Message) :
    (handleCommand s msg).returned = false := by
  unfold handleCommand
  cases mapGet s.clients msg.ClientID <;> rfl

/-- A step of an open connection whose handler does not return is the handler. -/
theorem step_recv_continue (s : World) (c : Nat) (msg : Message) (now now2 : Nat)
    (hopen : (s.conns c).closed = false)
    (hret : (handle s c msg now now2).returned = false) :
    step s (.recv c msg now now2)
      = ((handle s c msg now now2).world, (handle s c msg now now2).sent) := by
  simp [step, hopen, hret]

/-- A step of an open connection whose handler returns runs the cleanup. -/
theorem step_recv_return (s : World) (c : Nat) (msg : Message) (now now2 : Nat)
    (hopen : (s.conns c).closed = false)
    (hret : (handle s c msg now now2).returned = true) :
    step s (.recv c msg now now2)
      = ((cleanup (handle s c msg now now2).world c).1,
         (handle s c msg now now2).sent ++ (cleanup (handle s c msg now now2).world c).2) := by
  simp [step, hopen, hret]

/-! ## C7: results and prompts go to the addressed controller, verbatim -/

/-- C7. A `result` or `interactive_prompt` message read from an open connection:
    when its `id` is a key of `admins`, exactly one write is made, to that
    controller's connection, of the message itself; when it is not, no write is
    made; either way the whole state (registry, credential table, attempt
    records, connection locals) is unchanged and the reading connection stays open. -/
theorem result_forwarded_verbatim (s : World) (c : Nat) (msg : Message) (now now2 : Nat)
    (hopen : (s.conns c).closed = false)
    (hty : msg.MsgType = "result" ∨ msg.MsgType = "interactive_prompt") :
    (∀ admin, mapGet s.admins msg.ID = some admin →
        (step s (.recv c msg now now2)).2 = [(admin.Conn, msg)]) ∧
    (mapGet s.admins msg.ID = none → (step s (.recv c msg now now2)).2 = []) ∧
    (step s (.recv c msg now now2)).1 = s ∧
    (step s (.recv c msg now now2)).1.admins = s.admins ∧
    (step s (.recv c msg now now2)).1.clients = s.clients ∧
    (step s (.recv c msg now now2)).1.passwords = s.passwords ∧
    (step s (.recv c msg now now2)).1.authState = s.authState ∧
    ((step s (.recv c msg now now2)).1.conns c).closed = false := by
  have hh := handle_result s c msg now now2 hty
  have hstep := step_recv_continue s c msg now now2 hopen
    (by rw [hh]; exact handleResult_returned s msg)
  rw [hstep, hh, handleResult_world]
  refine ⟨?_, ?_, rfl, rfl, rfl, rfl, rfl, hopen⟩
  · intro admin hadmin
    simp [handleResult, hadmin]
  · intro hnone
    simp [handleResult, hnone]

/-- C7 at a concrete input: the result addressed to controller `a` reaches
    connection 2 unchanged. -/
theorem result_forwarded_verbatim_witness :
    (step demoWorld (.recv 1 demoResult 40 40)).2 = [(2, demoResult)] :=
  (result_forwarded_verbatim demoWorld 1 demoResult 40 40 (by decide) (by decide)).1
    ⟨"a", "admin", 2⟩ (by decide)

/-! ## Lemmas on the deferred cleanup -/

theorem setConn_admins (s : World) (c : Nat) (l : ConnLocal) :
    (setConn s c l).admins = s.admins := rfl

theorem setConn_clients (s : World) (c : Nat) (l : ConnLocal) :
    (setConn s c l).clients = s.clients := rfl

theorem setConn_passwords (s : World) (c : Nat) (l : ConnLocal) :
    (setConn s c l).passwords = s.passwords := rfl

theorem setConn_authState (s : World) (c : Nat) (l : ConnLocal) :
    (setConn s c l).authState = s.authState := rfl

theorem setConn_conns_self (s : World) (c : Nat) (l : ConnLocal) :
    (setConn s c l).conns c = l := by
  simp [setConn]

theorem setConn_conns_ne (s : World) {c c' : Nat} (l : ConnLocal) (h : c' ≠ c) :
    (setConn s c l).conns c' = s.conns c' := by
  simp [setConn, h]

/-- The cleanup closes the connection. -/
theorem cleanup_closed (s : World) (c : Nat) : ((cleanup s c).1.conns c).closed = true := by
  unfold cleanup
  cases (s.conns c).peer <;> simp [setConn]

/-- The cleanup touches the locals of no other connection. -/
theorem cleanup_conns_ne (s : World) {c c' : Nat} (h : c' ≠ c) :
    (cleanup s c).1.conns c' = s.conns c' := by
  unfold cleanup
  cases (s.conns c).peer with
  | none => simp [setConn, h]
  | some p =>
    by_cases h1 : p.Role = "admin" <;> by_cases h2 : p.Role = "client" <;>
      simp [setConn, h, h1, h2]

/-- The cleanup keeps the flag and the peer of the closing connection. -/
theorem cleanup_conns_self (s : World) (c : Nat) :
    (cleanup s c).1.conns c = { s.conns c with closed := true } := by
  unfold cleanup
  cases (s.conns c).peer with
  | none => simp [setConn]
  | some p =>
    by_cases h1 : p.Role = "admin" <;> by_cases h2 : p.Role = "client" <;>
      simp [setConn, h1, h2]

/-- The controller mapping after the cleanup. -/
theorem cleanup_admins (s : World) (c : Nat) :
    (cleanup s c).1.admins =
      match (s.conns c).peer with
      | none => s.admins
      | some p => if p.Role = "admin" then mapDel s.admins p.ID else s.admins := by
  unfold cleanup
  cases (s.conns c).peer with
  | none => simp [setConn]
  | some p =>
    by_cases h1 : p.Role = "admin" <;> by_cases h2 : p.Role = "client" <;>
      simp [setConn, h1, h2]

/-- The worker mapping after the cleanup. -/
theorem cleanup_clients (s : World) (c : Nat) :
    (cleanup s c).1.clients =
      match (s.conns c).peer with
      | none => s.clients
      | some p => if p.Role = "client" then mapDel s.clients p.ID else s.clients := by
  unfold cleanup
  cases (s.conns c).peer with
  | none => simp [setConn]
  | some p =>
    by_cases h1 : p.Role = "admin" <;> by_cases h2 : p.Role = "client" <;>
      simp [setConn, h1, h2]

theorem cleanup_passwords (s : World) (c : Nat) : (cleanup s c).1.passwords = s.passwords := by
  unfold cleanup
  cases (s.conns c).peer with
  | none => simp [setConn]
  | some p =>
    by_cases h1 : p.Role = "admin" <;> by_cases h2 : p.Role = "client" <;>
      simp [setConn, h1, h2]

theorem cleanup_authState (s : World) (c : Nat) : (cleanup s c).1.authState = s.authState := by
  unfold cleanup
  cases (s.conns c).peer with
  | none => simp [setConn]
  | some p =>
    by_cases h1 : p.Role = "admin" <;> by_cases h2 : p.Role = "client" <;>
      simp [setConn, h1, h2]

/-- The cleanup adds no entry to the controller mapping and changes none. -/
theorem cleanup_admins_sub (s : World) (c : Nat) {k : String} {p : Peer}
    (h : mapGet (cleanup s c).1.admins k = some p) : mapGet s.admins k = some p := by
  rw [cleanup_admins] at h
  cases hp : (s.conns c).peer with
  | none => simpa [hp] using h
  | some q =>
    rw [hp] at h
    by_cases h1 : q.Role = "admin"
    · simp only [h1, if_true] at h
      exact mapGet_mapDel_some _ h
    · simpa [h1] using h

/-- The cleanup adds no entry to the worker mapping and changes none. -/
theorem cleanup_clients_sub (s : World) (c : Nat) {k : String} {p : Peer}
    (h : mapGet (cleanup s c).1.clients k = some p) : mapGet s.clients k = some p := by
  rw [cleanup_clients] at h
  cases hp : (s.conns c).peer with
  | none => simpa [hp] using h
  | some q =>
    rw [hp] at h
    by_cases h1 : q.Role = "client"
    · simp only [h1, if_true] at h
      exact mapGet_mapDel_some _ h
    · simpa [h1] using h

/-- The cleanup writes only `admin_detach` and `session_closed` messages. -/
theorem cleanup_sent_types (s : World) (c : Nat) (x : Sent) (hx : x ∈ (cleanup s c).2) :
    x.2.MsgType = "admin_detach" ∨ x.2.MsgType = "session_closed" := by
  unfold cleanup at hx
  cases hp : (s.conns c).peer with
  | none => simp [hp] at hx
  | some p =>
    rw [hp] at hx
    by_cases h1 : p.Role = "admin" <;> by_cases h2 : p.Role = "client" <;>
      simp [h1, h2] at hx
    all_goals
      obtain ⟨a, b, _, rfl⟩ := hx
      simp

/-! ## Rejection of an unauthenticated controller registration -/

/-- The handler of a `register` with role `admin` on an unauthenticated
    connection: it answers `auth_fail` to the sender, returns, and leaves the
    state as it was. -/
theorem handleRegister_rejected (s : World) (c : Nat) (msg : Message)
    (hrole : msg.Role = "admin") (hauth : (s.conns c).authenticated = false) :
    handleRegister s c msg =
      { world := s
        sent := [(c, { MsgType := "auth_fail", Error := "Admin not authenticated" })]
        returned := true } := by
  simp [handleRegister, hrole, hauth]

/-- A `register` with role `admin` read from an open connection whose
    `authenticated` flag is unset: the connection is closed, the handler leaves
    both mappings untouched, the cleanup adds and changes no entry, and no
    `admin_attach` is written. -/
theorem register_admin_rejected_of_flag (s : World) (c : Nat) (msg : Message)
    (now now2 : Nat)
    (hopen : (s.conns c).closed = false)
    (hty : msg.MsgType = "register") (hrole : msg.Role = "admin")
    (hauth : (s.conns c).authenticated = false) :
    ((step s (.recv c msg now now2)).1.conns c).closed = true ∧
    (handle s c msg now now2).returned = true ∧
    (handle s c msg now now2).world.admins = s.admins ∧
    (handle s c msg now now2).world.clients = s.clients ∧
    (∀ k p, mapGet (step s (.recv c msg now now2)).1.admins k = some p →
        mapGet s.admins k = some p) ∧
    (∀ k p, mapGet (step s (.recv c msg now now2)).1.clients k = some p →
        mapGet s.clients k = some p) ∧
    (∀ x ∈ (step s (.recv c msg now now2)).2, x.2.MsgType ≠ "admin_attach") := by
  have hh : handle s c msg now now2 = _ :=
    (handle_register s c msg now now2 hty).trans (handleRegister_rejected s c msg hrole hauth)
  have hstep := step_recv_return s c msg now now2 hopen (by rw [hh])
  rw [hstep, hh]
  refine ⟨cleanup_closed s c, rfl, rfl, rfl, ?_, ?_, ?_⟩
  · intro k p h
    exact cleanup_admins_sub s c h
  · intro k p h
    exact cleanup_clients_sub s c h
  · intro x hx
    simp only [List.cons_append, List.nil_append, List.mem_cons] at hx
    rcases hx with rfl | hx
    · simp
    · rcases cleanup_sent_types s c x hx with h | h <;> simp [h]

/-! ## C6 and C2: routing of `command` and `interactive_response` -/

/-- The step of a `command` or `interactive_response` read from an open connection. -/
theorem step_command (s : World) (c : Nat) (msg : Message) (now now2 : Nat)
    (hopen : (s.conns c).closed = false)
    (hty : msg.MsgType = "command" ∨ msg.MsgType = "interactive_response") :
    step s (.recv c msg now now2) = (s, (handleCommand s msg).sent) := by
  have hh := handle_command s c msg now now2 hty
  have hstep := step_recv_continue s c msg now now2 hopen
    (by rw [hh]; exact handleCommand_returned s msg)
  rw [hstep, hh, handleCommand_world]

/-- C6, refuted as stated. Controller `a`, registered on connection 2, sends a
    `command` for the registered worker `w` whose `id` field is `b` and whose
    prompt is `p`: the one message written to the worker's connection 1 is not
    the incoming message with `id` replaced by `a`; its `id` is `b`, as sent,
    and its prompt is empty. -/
theorem command_forward_counterexample :
    mapGet demoWorld.admins "a" = some ⟨"a", "admin", 2⟩ ∧
    (demoWorld.conns 2).peer = some ⟨"a", "admin", 2⟩ ∧
    mapGet demoWorld.clients demoCommand.ClientID = some ⟨"w", "client", 1⟩ ∧
    (step demoWorld (.recv 2 demoCommand 40 40)).2 ≠ [(1, { demoCommand with ID := "a" })] ∧
    (step demoWorld (.recv 2 demoCommand 40 40)).2 =
      [(1, { MsgType := "command", ClientID := "w", CommandID := "c1", Command := "ls",
             ID := "b" })] := by
  decide

/-- C6, amended. A `command` or `interactive_response` message read from an
    open connection whose `client_id` is a key of `clients`: exactly one write
    is made, to that worker's connection, of a message with the incoming type,
    client_id, command_id, command and id (the id as the sender wrote it) and
    every other field empty; the state is unchanged. -/
theorem command_forwarded_fields (s : World) (c : Nat) (msg : Message) (now now2 : Nat)
    (worker : Peer)
    (hopen : (s.conns c).closed = false)
    (hty : msg.MsgType = "command" ∨ msg.MsgType = "interactive_response")
    (hworker : mapGet s.clients msg.ClientID = some worker) :
    (step s (.recv c msg now now2)).2 = [(worker.Conn, forwardedCommand msg)] ∧
    (forwardedCommand msg).MsgType = msg.MsgType ∧
    (forwardedCommand msg).ClientID = msg.ClientID ∧
    (forwardedCommand msg).CommandID = msg.CommandID ∧
    (forwardedCommand msg).Command = msg.Command ∧
    (forwardedCommand msg).ID = msg.ID ∧
    (forwardedCommand msg).Prompt = "" ∧
    (forwardedCommand msg).Result = [] ∧
    (forwardedCommand msg).Role = "" ∧
    (forwardedCommand msg).Password = "" ∧
    (forwardedCommand msg).Error = "" ∧
    (step s (.recv c msg now now2)).1 = s := by
  rw [step_command s c msg now now2 hopen hty]
  refine ⟨?_, rfl, rfl, rfl, rfl, rfl, rfl, rfl, rfl, rfl, rfl, rfl⟩
  simp [handleCommand, hworker, forwardedCommand]

/-- C6, amended, at a concrete input. -/
theorem command_forwarded_fields_witness :
    (step demoWorld (.recv 2 demoCommand 40 40)).2 = [(1, forwardedCommand demoCommand)] :=
  (command_forwarded_fields demoWorld 2 demoCommand 40 40 ⟨"w", "client", 1⟩
    (by decide) (by decide) (by decide)).1

/-- C2, refuted as stated. In the example state, which a run from the start
    state leads to, connection 3 has neither authenticated nor registered and
    is the connection of no registry entry,
    yet the `command` it sends for worker `w` is written to the worker's
    connection 1; and so is the one sent by the worker's own connection 1. -/
theorem command_sender_counterexample :
    Reachable demoWorld ∧
    (demoWorld.conns 3).authenticated = false ∧
    (demoWorld.conns 3).peer = none ∧
    (∀ e ∈ demoWorld.admins, e.2.Conn ≠ 3) ∧
    (step demoWorld (.recv 3 demoCommand 40 40)).2 = [(1, forwardedCommand demoCommand)] ∧
    (demoWorld.conns 1).peer = some ⟨"w", "client", 1⟩ ∧
    (step demoWorld (.recv 1 demoCommand 40 40)).2 = [(1, forwardedCommand demoCommand)] :=
  ⟨⟨_, _, rfl⟩, by decide⟩

/-- C2, amended. A `command` or `interactive_response` message read from an
    open connection is written only to the connection registered in `clients`
    under the message's `client_id`, and is written exactly when there is one;
    the router does not consult the sender: any two open connections sending
    the same message cause the same writes. -/
theorem command_routed_by_client_id (s : World) (c c' : Nat) (msg : Message)
    (now now2 : Nat)
    (hopen : (s.conns c).closed = false) (hopen' : (s.conns c').closed = false)
    (hty : msg.MsgType = "command" ∨ msg.MsgType = "interactive_response") :
    (∀ x ∈ (step s (.recv c msg now now2)).2,
        ∃ worker, mapGet s.clients msg.ClientID = some worker ∧ x.1 = worker.Conn) ∧
    ((step s (.recv c msg now now2)).2 ≠ [] ↔ (mapGet s.clients msg.ClientID).isSome) ∧
    (step s (.recv c msg now now2)).2 = (step s (.recv c' msg now now2)).2 := by
  rw [step_command s c msg now now2 hopen hty, step_command s c' msg now now2 hopen' hty]
  refine ⟨?_, ?_, rfl⟩
  · intro x hx
    cases hw : mapGet s.clients msg.ClientID with
    | none => simp [handleCommand, hw] at hx
    | some worker =>
      simp [handleCommand, hw] at hx
      exact ⟨worker, rfl, by rw [hx]⟩
  · cases hw : mapGet s.clients msg.ClientID <;> simp [handleCommand, hw]

/-- C2, amended, at a concrete input: the unregistered connection 3 and the
    controller's connection 2 cause the same write. -/
theorem command_routed_by_client_id_witness :
    (step demoWorld (.recv 3 demoCommand 40 40)).2
      = (step demoWorld (.recv 2 demoCommand 40 40)).2 :=
  (command_routed_by_client_id demoWorld 3 2 demoCommand 40 40
    (by decide) (by decide) (by decide)).2.2

/-! ## The `auth` branch, case by case -/

/-- The attempt table once line 126-130 made sure `k` has a record. -/
theorem authState_ensure (s : World) (k : String) :
    (match mapGet s.authState k with
      | none => mapSet s.authState k ((mapGet s.authState k).getD {})
      | some _ => s.authState) = mapSet s.authState k (authRecord s k) := by
  unfold authRecord
  cases h : mapGet s.authState k with
  | none => simp
  | some st => simp [mapSet_same _ _ _ h]

theorem mapSet_mapSet {α : Type} (m : List (String × α)) (k : String) (v v' : α) :
    mapSet (mapSet m k v) k v' = mapSet m k v' := by
  induction m with
  | nil => simp [mapSet]
  | cons e t ih =>
    obtain ⟨a, b⟩ := e
    by_cases h : a = k
    · simp [mapSet, h]
    · simp [mapSet, h, ih]

/-- While the lockout of the identity is active, `auth` answers `auth_fail`
    with the lockout text and records nothing. -/
theorem handleAuth_locked (s : World) (c : Nat) (msg : Message) (now now2 : Nat)
    (hlock : now < (authRecord s msg.ClientID).Blocked) :
    (handleAuth s c msg now now2).sent
        = [(c, { MsgType := "auth_fail", Error := "Тайм-аут 1 минута" })] ∧
    (handleAuth s c msg now now2).returned = false ∧
    (handleAuth s c msg now now2).world = s := by
  have hsome : ∃ st, mapGet s.authState msg.ClientID = some st := by
    cases h : mapGet s.authState msg.ClientID with
    | none => simp [authRecord, h] at hlock
    | some st => exact ⟨st, rfl⟩
  obtain ⟨st, hst⟩ := hsome
  have hlock' : now < st.Blocked := by simpa [authRecord, hst] using hlock
  simp [handleAuth, hst, hlock']

/-- With no active lockout and a password that differs from the one `auth`
    compares with, the attempt is counted, the third one starts a lockout of
    one minute from the clock reading `now2`, and the answer is `auth_fail`. -/
theorem handleAuth_mismatch (s : World) (c : Nat) (msg : Message) (now now2 : Nat)
    (hfree : (authRecord s msg.ClientID).Blocked ≤ now)
    (hpw : storedPassword s msg.ClientID ≠ msg.Password) :
    (handleAuth s c msg now now2).sent
        = [(c, { MsgType := "auth_fail", Error := "Неверный логин или пароль" })] ∧
    (handleAuth s c msg now now2).returned = false ∧
    (handleAuth s c msg now now2).world =
      { s with
        authState := mapSet s.authState msg.ClientID
          (if incInt (authRecord s msg.ClientID).Attempts ≥ 3
           then { Attempts := 0, Blocked := now2 + minute }
           else { authRecord s msg.ClientID with
                  Attempts := incInt (authRecord s msg.ClientID).Attempts }) } := by
  have h1 : ¬ now < ((mapGet s.authState msg.ClientID).getD {}).Blocked :=
    Nat.not_lt.mpr hfree
  have h2 : (mapGet s.passwords msg.ClientID).getD "" ≠ msg.Password := hpw
  unfold handleAuth
  simp only [h1, if_false, h2, ne_eq, not_false_eq_true, if_true, authState_ensure,
    mapSet_mapSet]
  exact ⟨trivial, trivial, rfl⟩

/-- With no active lockout and the password `auth` compares with, the attempt
    counter is reset, the connection becomes authenticated and the answer is
    `auth_ok`. -/
theorem handleAuth_match (s : World) (c : Nat) (msg : Message) (now now2 : Nat)
    (hfree : (authRecord s msg.ClientID).Blocked ≤ now)
    (hpw : storedPassword s msg.ClientID = msg.Password) :
    (handleAuth s c msg now now2).sent = [(c, { MsgType := "auth_ok" })] ∧
    (handleAuth s c msg now now2).returned = false ∧
    (handleAuth s c msg now now2).world =
      setConn
        { s with
          authState := mapSet s.authState msg.ClientID
            { authRecord s msg.ClientID with Attempts := 0 } }
        c { s.conns c with authenticated := true } := by
  have h1 : ¬ now < ((mapGet s.authState msg.ClientID).getD {}).Blocked :=
    Nat.not_lt.mpr hfree
  have h2 : ¬ (mapGet s.passwords msg.ClientID).getD "" ≠ msg.Password := by
    simpa [storedPassword] using hpw
  unfold handleAuth
  simp only [h1, if_false, h2, authState_ensure, mapSet_mapSet]
  exact ⟨trivial, trivial, rfl⟩

/-- The `auth` branch in normal form: its three outcomes. -/
theorem handleAuth_eq (s : World) (c : Nat) (msg : Message) (now now2 : Nat) :
    handleAuth s c msg now now2 =
      if now < (authRecord s msg.ClientID).Blocked then
        { world := s
          sent := [(c, { MsgType := "auth_fail", Error := "Тайм-аут 1 минута" })] }
      else if storedPassword s msg.ClientID ≠ msg.Password then
        { world :=
            { s with
              authState := mapSet s.authState msg.ClientID
                (if incInt (authRecord s msg.ClientID).Attempts ≥ 3
                 then { Attempts := 0, Blocked := now2 + minute }
                 else { authRecord s msg.ClientID with
                        Attempts := incInt (authRecord s msg.ClientID).Attempts }) }
          sent := [(c, { MsgType := "auth_fail", Error := "Неверный логин или пароль" })] }
      else
        { world :=
            setConn
              { s with
                authState := mapSet s.authState msg.ClientID
                  { authRecord s msg.ClientID with Attempts := 0 } }
              c { s.conns c with authenticated := true }
          sent := [(c, { MsgType := "auth_ok" })] } := by
  by_cases hlock : now < (authRecord s msg.ClientID).Blocked
  · obtain ⟨h1, h2, h3⟩ := handleAuth_locked s c msg now now2 hlock
    rw [if_pos hlock]
    calc handleAuth s c msg now now2
        = ⟨(handleAuth s c msg now now2).world, (handleAuth s c msg now now2).sent,
            (handleAuth s c msg now now2).returned⟩ := rfl
      _ = _ := by rw [h1, h2, h3]
  · have hfree : (authRecord s msg.ClientID).Blocked ≤ now := Nat.not_lt.mp hlock
    rw [if_neg hlock]
    by_cases hpw : storedPassword s msg.ClientID ≠ msg.Password
    · obtain ⟨h1, h2, h3⟩ := handleAuth_mismatch s c msg now now2 hfree hpw
      rw [if_pos hpw]
      calc handleAuth s c msg now now2
          = ⟨(handleAuth s c msg now now2).world, (handleAuth s c msg now now2).sent,
              (handleAuth s c msg now now2).returned⟩ := rfl
        _ = _ := by rw [h1, h2, h3]
    · have hpw' : storedPassword s msg.ClientID = msg.Password := by simpa using hpw
      obtain ⟨h1, h2, h3⟩ := handleAuth_match s c msg now now2 hfree hpw'
      rw [if_neg hpw]
      calc handleAuth s c msg now now2
          = ⟨(handleAuth s c msg now now2).world, (handleAuth s c msg now now2).sent,
              (handleAuth s c msg now now2).returned⟩ := rfl
        _ = _ := by rw [h1, h2, h3]

/-- The record of `k` after `k`'s entry was written. -/
theorem authRecord_set (s s' : World) (k : String) (st : AuthState)
    (h : s'.authState = mapSet s.authState k st) : authRecord s' k = st := by
  simp [authRecord, h, mapGet_mapSet_self]

/-- The record of another identity after `k`'s entry was written. -/
theorem authRecord_set_ne (s s' : World) {k k' : String} (st : AuthState)
    (h : s'.authState = mapSet s.authState k st) (hk : k ≠ k') :
    authRecord s' k' = authRecord s k' := by
  simp [authRecord, h, mapGet_mapSet_ne _ _ hk]

/-! ## C10: the right password after the lockout has elapsed -/

/-- C10. An `auth` message for identity `id` (the identity `auth` reads from
    the message, its `client_id`) carrying the password `P` stored for `id`,
    read from an open connection at a time `now` at or after the end of the
    lockout of `id`, whatever the attempt counter: the answer is `auth_ok`, the
    connection is marked authenticated and stays open, the counter of `id` is 0
    and the end of its lockout is the one of before. -/
theorem auth_ok_after_lockout (s : World) (c : Nat) (msg : Message) (now now2 : Nat)
    (id P : String)
    (hopen : (s.conns c).closed = false)
    (hty : msg.MsgType = "auth") (hid : msg.ClientID = id)
    (hstored : mapGet s.passwords id = some P) (hpw : msg.Password = P)
    (helapsed : (authRecord s id).Blocked ≤ now) :
    (step s (.recv c msg now now2)).2 = [(c, { MsgType := "auth_ok" })] ∧
    ((step s (.recv c msg now now2)).1.conns c).authenticated = true ∧
    ((step s (.recv c msg now now2)).1.conns c).closed = false ∧
    mapGet (step s (.recv c msg now now2)).1.authState id
      = some { Attempts := 0, Blocked := (authRecord s id).Blocked } ∧
    (authRecord (step s (.recv c msg now now2)).1 id).Attempts = 0 ∧
    (authRecord (step s (.recv c msg now now2)).1 id).Blocked = (authRecord s id).Blocked := by
  subst hid
  have hsp : storedPassword s msg.ClientID = msg.Password := by
    simp [storedPassword, hstored, hpw]
  obtain ⟨h1, h2, h3⟩ := handleAuth_match s c msg now now2 helapsed hsp
  have hh := handle_auth s c msg now now2 hty
  have hstep := step_recv_continue s c msg now now2 hopen (by rw [hh]; exact h2)
  rw [hstep, hh, h1, h3]
  refine ⟨rfl, ?_, ?_, ?_, ?_, ?_⟩
  · simp [setConn]
  · simp [setConn, hopen]
  · simp [setConn, mapGet_mapSet_self]
  · simp [authRecord, setConn, mapGet_mapSet_self]
  · simp [authRecord, setConn, mapGet_mapSet_self]

/-- C10 at a concrete input: with two failures on record and the lockout over
    since time 50, the right password at time 60 is accepted and the counter
    is reset while the end of the lockout stays 50. -/
theorem auth_ok_after_lockout_witness :
    (step afterLockoutWorld (.recv 1 (authMsg "a" "pw") 60 60)).2
        = [(1, { MsgType := "auth_ok" })] ∧
    mapGet (step afterLockoutWorld (.recv 1 (authMsg "a" "pw") 60 60)).1.authState "a"
        = some { Attempts := 0, Blocked := 50 } :=
  ⟨(auth_ok_after_lockout afterLockoutWorld 1 (authMsg "a" "pw") 60 60 "a" "pw"
      (by decide) (by decide) (by decide) (by decide) (by decide) (by decide)).1,
   (auth_ok_after_lockout afterLockoutWorld 1 (authMsg "a" "pw") 60 60 "a" "pw"
      (by decide) (by decide) (by decide) (by decide) (by decide) (by decide)).2.2.2.1⟩

/-! ## What each branch leaves alone -/

theorem handleSessionClosed_world (s : World) (msg : Message) :
    (handleSessionClosed s msg).world = s := by
  unfold handleSessionClosed
  cases mapGet s.admins msg.ID <;> rfl

theorem handleSessionClosed_returned (s : World) (msg : Message) :
    (handleSessionClosed s msg).returned = false := by
  unfold handleSessionClosed
  cases mapGet s.admins msg.ID <;> rfl

theorem handleAuth_returned (s : World) (c : Nat) (msg : Message) (now now2 : Nat) :
    (handleAuth s c msg now now2).returned = false := by
  rw [handleAuth_eq]
  split
  · rfl
  · split <;> rfl

theorem handleAuth_admins (s : World) (c : Nat) (msg : Message) (now now2 : Nat) :
    (handleAuth s c msg now now2).world.admins = s.admins := by
  rw [handleAuth_eq]
  split
  · rfl
  · split <;> rfl

theorem handleAuth_clients (s : World) (c : Nat) (msg : Message) (now now2 : Nat) :
    (handleAuth s c msg now now2).world.clients = s.clients := by
  rw [handleAuth_eq]
  split
  · rfl
  · split <;> rfl

theorem handleAuth_passwords (s : World) (c : Nat) (msg : Message) (now now2 : Nat) :
    (handleAuth s c msg now now2).world.passwords = s.passwords := by
  rw [handleAuth_eq]
  split
  · rfl
  · split <;> rfl

theorem handleRegister_passwords (s : World) (c : Nat) (msg : Message) :
    (handleRegister s c msg).world.passwords = s.passwords := by
  unfold handleRegister
  split
  · rfl
  · dsimp only
    split <;> rfl

theorem handleRegister_authState (s : World) (c : Nat) (msg : Message) :
    (handleRegister s c msg).world.authState = s.authState := by
  unfold handleRegister
  split
  · rfl
  · dsimp only
    split <;> rfl

theorem handleClientHello_authState (s : World) (c : Nat) (msg : Message) :
    (handleClientHello s c msg).world.authState = s.authState := by
  unfold handleClientHello
  split
  · rfl
  · dsimp only
    split <;> rfl

theorem handleClientHello_admins (s : World) (c : Nat) (msg : Message) :
    (handleClientHello s c msg).world.admins = s.admins := by
  unfold handleClientHello
  split
  · rfl
  · dsimp only
    split <;> rfl

/-- The world a step leads to is the one of the handler, followed by the
    cleanup when the handler returned. -/
theorem step_recv_world (s : World) (c : Nat) (msg : Message) (now now2 : Nat)
    (hopen : (s.conns c).closed = false) :
    (step s (.recv c msg now now2)).1 =
      if (handle s c msg now now2).returned
      then (cleanup (handle s c msg now now2).world c).1
      else (handle s c msg now now2).world := by
  by_cases h : (handle s c msg now now2).returned = true <;> simp [step, hopen, h]

theorem step_closed (s : World) (c : Nat) (msg : Message) (now now2 : Nat)
    (hclosed : (s.conns c).closed = true) :
    step s (.recv c msg now now2) = (s, []) := by
  simp [step, hclosed]

/-- Only the `auth` branch writes attempt records. -/
theorem handle_authState_of_not_auth (s : World) (c : Nat) (msg : Message) (now now2 : Nat)
    (hty : msg.MsgType ≠ "auth") :
    (handle s c msg now now2).world.authState = s.authState := by
  unfold handle
  simp only [hty, if_false]
  split
  · exact handleRegister_authState s c msg
  · split
    · exact handleClientHello_authState s c msg
    · split
      · rw [handleCommand_world]
      · split
        · rw [handleResult_world]
        · split
          · rw [handleSessionClosed_world]
          · rfl

/-- The `auth` branch for one identity leaves the records of the others alone. -/
theorem handleAuth_authRecord_ne (s : World) (c : Nat) (msg : Message) (now now2 : Nat)
    {k : String} (hk : msg.ClientID ≠ k) :
    authRecord (handleAuth s c msg now now2).world k = authRecord s k := by
  have key : ∀ st, mapGet (mapSet s.authState msg.ClientID st) k = mapGet s.authState k :=
    fun st => mapGet_mapSet_ne _ st hk
  rw [handleAuth_eq]
  split
  · rfl
  · split <;> simp [authRecord, setConn, key]

/-- A step that is not an `auth` for identity `k` leaves the record of `k` alone. -/
theorem step_authRecord_other (s : World) (c : Nat) (msg : Message) (now now2 : Nat)
    (k : String) (h : ¬ (msg.MsgType = "auth" ∧ msg.ClientID = k)) :
    authRecord (step s (.recv c msg now now2)).1 k = authRecord s k := by
  by_cases hclosed : (s.conns c).closed = true
  · rw [step_closed s c msg now now2 hclosed]
  · have hopen : (s.conns c).closed = false := by simpa using hclosed
    have hw : authRecord (handle s c msg now now2).world k = authRecord s k := by
      by_cases hty : msg.MsgType = "auth"
      · rw [handle_auth s c msg now now2 hty]
        exact handleAuth_authRecord_ne s c msg now now2 (fun hk => h ⟨hty, hk⟩)
      · simp [authRecord, handle_authState_of_not_auth s c msg now now2 hty]
    rw [step_recv_world s c msg now now2 hopen]
    split
    · rw [← hw]
      simp [authRecord, cleanup_authState]
    · exact hw

theorem step_disconnect_authState (s : World) (c : Nat) :
    (step s (.disconnect c)).1.authState = s.authState := by
  simp only [step]
  split
  · rfl
  · exact cleanup_authState s c

/-! ## The lockout (the mechanism C1 is about) -/

/-- A failed attempt, as a step: the reply, and the new record of the identity. -/
theorem step_auth_mismatch (s : World) (c : Nat) (msg : Message) (now now2 : Nat)
    (hopen : (s.conns c).closed = false) (hty : msg.MsgType = "auth")
    (hfree : (authRecord s msg.ClientID).Blocked ≤ now)
    (hpw : storedPassword s msg.ClientID ≠ msg.Password) :
    (step s (.recv c msg now now2)).2 = [(c, mismatchReply)] ∧
    authRecord (step s (.recv c msg now now2)).1 msg.ClientID =
      (if incInt (authRecord s msg.ClientID).Attempts ≥ 3
       then { Attempts := 0, Blocked := now2 + minute }
       else { authRecord s msg.ClientID with
              Attempts := incInt (authRecord s msg.ClientID).Attempts }) ∧
    (step s (.recv c msg now now2)).1.passwords = s.passwords ∧
    (step s (.recv c msg now now2)).1.conns = s.conns := by
  obtain ⟨h1, h2, h3⟩ := handleAuth_mismatch s c msg now now2 hfree hpw
  have hh := handle_auth s c msg now now2 hty
  have hstep := step_recv_continue s c msg now now2 hopen (by rw [hh]; exact h2)
  rw [hstep, hh, h1, h3]
  exact ⟨rfl, authRecord_set s _ _ _ rfl, rfl, rfl⟩

/-- An attempt during the lockout, as a step: the lockout reply and no change at all. -/
theorem step_auth_locked (s : World) (c : Nat) (msg : Message) (now now2 : Nat)
    (hopen : (s.conns c).closed = false) (hty : msg.MsgType = "auth")
    (hlock : now < (authRecord s msg.ClientID).Blocked) :
    step s (.recv c msg now now2) = (s, [(c, lockoutReply)]) := by
  obtain ⟨h1, h2, h3⟩ := handleAuth_locked s c msg now now2 hlock
  have hh := handle_auth s c msg now now2 hty
  have hstep := step_recv_continue s c msg now now2 hopen (by rw [hh]; exact h2)
  rw [hstep, hh, h1, h3]
  rfl

/-- Three failed attempts in a row for an identity that starts with no failure
    on record and no active lockout: each is answered with the mismatch reply,
    and afterwards the counter is 0 and the lockout ends one minute after the
    clock reading `u3` taken when the third failure is recorded. The passwords
    are those the comparison of line 141 rejects: different from the stored
    password or, for an identity with none, not empty. -/
theorem three_failures_lock (s : World) (id : String) (c1 c2 c3 : Nat)
    (m1 m2 m3 : Message) (t1 u1 t2 u2 t3 u3 : Nat)
    (hatt : (authRecord s id).Attempts = 0)
    (hfree : (authRecord s id).Blocked ≤ t1) (h12 : t1 ≤ t2) (h23 : t2 ≤ t3)
    (ho1 : (s.conns c1).closed = false) (ho2 : (s.conns c2).closed = false)
    (ho3 : (s.conns c3).closed = false)
    (hm1 : m1.MsgType = "auth" ∧ m1.ClientID = id ∧ storedPassword s id ≠ m1.Password)
    (hm2 : m2.MsgType = "auth" ∧ m2.ClientID = id ∧ storedPassword s id ≠ m2.Password)
    (hm3 : m3.MsgType = "auth" ∧ m3.ClientID = id ∧ storedPassword s id ≠ m3.Password) :
    (step s (.recv c1 m1 t1 u1)).2 = [(c1, mismatchReply)] ∧
    (step (run s [.recv c1 m1 t1 u1]) (.recv c2 m2 t2 u2)).2 = [(c2, mismatchReply)] ∧
    (step (run s [.recv c1 m1 t1 u1, .recv c2 m2 t2 u2]) (.recv c3 m3 t3 u3)).2
      = [(c3, mismatchReply)] ∧
    authRecord (run s [.recv c1 m1 t1 u1, .recv c2 m2 t2 u2, .recv c3 m3 t3 u3]) id
      = { Attempts := 0, Blocked := u3 + minute } := by
  obtain ⟨ht1, hi1, hp1⟩ := hm1
  obtain ⟨ht2, hi2, hp2⟩ := hm2
  obtain ⟨ht3, hi3, hp3⟩ := hm3
  subst hi1
  -- first failure
  obtain ⟨a1, a2, a3, a4⟩ := step_auth_mismatch s c1 m1 t1 u1 ho1 ht1 hfree hp1
  rw [hatt] at a2
  have r1 : authRecord (step s (.recv c1 m1 t1 u1)).1 m1.ClientID
      = { Attempts := 1, Blocked := (authRecord s m1.ClientID).Blocked } := by
    rw [a2]; simp [incInt]
  -- second failure
  have hfree2 : (authRecord (step s (.recv c1 m1 t1 u1)).1 m2.ClientID).Blocked ≤ t2 := by
    rw [hi2, r1]; exact le_trans hfree h12
  have hp2' : storedPassword (step s (.recv c1 m1 t1 u1)).1 m2.ClientID ≠ m2.Password := by
    rw [hi2]; simpa [storedPassword, a3] using hp2
  obtain ⟨b1, b2, b3, b4⟩ := step_auth_mismatch (step s (.recv c1 m1 t1 u1)).1 c2 m2 t2 u2
    (by rw [a4]; exact ho2) ht2 hfree2 hp2'
  rw [hi2, r1] at b2
  have r2 : authRecord (step (step s (.recv c1 m1 t1 u1)).1 (.recv c2 m2 t2 u2)).1 m1.ClientID
      = { Attempts := 2, Blocked := (authRecord s m1.ClientID).Blocked } := by
    rw [b2]; simp [incInt]
  -- third failure
  have hfree3 : (authRecord (step (step s (.recv c1 m1 t1 u1)).1 (.recv c2 m2 t2 u2)).1
      m3.ClientID).Blocked ≤ t3 := by
    rw [hi3, r2]; exact le_trans hfree (le_trans h12 h23)
  have hp3' : storedPassword (step (step s (.recv c1 m1 t1 u1)).1 (.recv c2 m2 t2 u2)).1
      m3.ClientID ≠ m3.Password := by
    rw [hi3]; simpa [storedPassword, a3, b3] using hp3
  obtain ⟨d1, d2, _, _⟩ := step_auth_mismatch
    (step (step s (.recv c1 m1 t1 u1)).1 (.recv c2 m2 t2 u2)).1 c3 m3 t3 u3
    (by rw [b4, a4]; exact ho3) ht3 hfree3 hp3'
  rw [hi3, r2] at d2
  refine ⟨a1, b1, d1, ?_⟩
  show authRecord (step (step (step s (.recv c1 m1 t1 u1)).1 (.recv c2 m2 t2 u2)).1
    (.recv c3 m3 t3 u3)).1 m1.ClientID = _
  rw [d2]; simp [incInt]

/-- While the lockout of an identity is active, an `auth` message for it is
    answered with the lockout reply whatever its password, and changes nothing:
    not the record, not the `authenticated` flag of the connection. -/
theorem locked_auth_rejected (s : World) (id : String) (c : Nat) (msg : Message)
    (now now2 : Nat)
    (hopen : (s.conns c).closed = false)
    (hty : msg.MsgType = "auth") (hid : msg.ClientID = id)
    (hlock : now < (authRecord s id).Blocked) :
    (step s (.recv c msg now now2)).2 = [(c, lockoutReply)] ∧
    (step s (.recv c msg now now2)).1 = s := by
  subst hid
  rw [step_auth_locked s c msg now now2 hopen hty hlock]
  exact ⟨rfl, rfl⟩

/-- The record of an identity stays as it is along any run in which every
    `auth` message for that identity is checked before the end of its lockout. -/
theorem lockout_persists (k : String) (es : List Event) (s : World)
    (h : ∀ e ∈ es, e.authFor k → e.time < (authRecord s k).Blocked) :
    authRecord (run s es) k = authRecord s k := by
  induction es generalizing s with
  | nil => rfl
  | cons e es ih =>
    have hstep : authRecord (step s e).1 k = authRecord s k := by
      cases e with
      | disconnect c => simp [authRecord, step_disconnect_authState]
      | recv c msg now now2 =>
        by_cases ha : msg.MsgType = "auth" ∧ msg.ClientID = k
        · have hlt : now < (authRecord s k).Blocked := h _ (List.mem_cons_self _ _) ha
          by_cases hclosed : (s.conns c).closed = true
          · rw [step_closed s c msg now now2 hclosed]
          · have hopen : (s.conns c).closed = false := by simpa using hclosed
            rw [(locked_auth_rejected s k c msg now now2 hopen ha.1 ha.2 hlt).2]
        · exact step_authRecord_other s c msg now now2 k ha
    show authRecord (run (step s e).1 es) k = authRecord s k
    rw [ih (step s e).1 (fun e' he' ha' => by
      rw [hstep]; exact h e' (List.mem_cons_of_mem _ he') ha'), hstep]

/-! ## The registration branches in normal form -/

theorem handleRegister_admin_ok (s : World) (c : Nat) (msg : Message)
    (hrole : msg.Role = "admin") (hauth : (s.conns c).authenticated = true) :
    handleRegister s c msg =
      { world := { withPeer s c ⟨msg.ID, msg.Role, c⟩ with
                   admins := mapSet s.admins msg.ID ⟨msg.ID, msg.Role, c⟩ }
        sent := s.clients.map fun e => (e.2.Conn, { MsgType := "admin_attach", ID := msg.ID }) } := by
  simp [handleRegister, hrole, hauth, withPeer]

theorem handleRegister_worker (s : World) (c : Nat) (msg : Message)
    (hrole : msg.Role ≠ "admin") :
    handleRegister s c msg =
      { world := { withPeer s c ⟨msg.ID, msg.Role, c⟩ with
                   clients := mapSet s.clients msg.ID ⟨msg.ID, msg.Role, c⟩ } } := by
  simp [handleRegister, hrole, withPeer]

theorem handleClientHello_rejected (s : World) (c : Nat) (msg : Message)
    (h : ¬ secretAccepted s msg) :
    handleClientHello s c msg = { world := s, returned := true } := by
  unfold secretAccepted at h
  unfold handleClientHello
  cases hp : mapGet s.passwords msg.ID with
  | none => simp [hp] at h
  | some stored =>
    have hne : stored ≠ msg.Password := by
      intro heq
      apply h
      right
      rw [hp, heq]
    simp [hne]

theorem handleClientHello_accepted (s : World) (c : Nat) (msg : Message)
    (h : secretAccepted s msg) :
    handleClientHello s c msg =
      { world := { withPeer { s with passwords := mapSet s.passwords msg.ID msg.Password } c
                      ⟨msg.ID, "client", c⟩ with
                   clients := mapSet s.clients msg.ID ⟨msg.ID, "client", c⟩ }
        sent := s.admins.map fun e => (c, { MsgType := "admin_attach", ID := e.2.ID }) } := by
  unfold secretAccepted at h
  unfold handleClientHello
  rcases h with hp | hp
  · simp [hp, withPeer, setConn]
  · simp [hp, withPeer, setConn, mapSet_same _ _ _ hp]

/-! ## Which branch a message takes -/

/-- The dispatch takes the `auth`, the `register` or the `client_hello` branch,
    or a branch that changes no state and does not return (the routing
    branches and the ignored types). -/
theorem handle_cases (s : World) (c : Nat) (msg : Message) (now now2 : Nat) :
    (msg.MsgType = "auth" ∧ handle s c msg now now2 = handleAuth s c msg now now2) ∨
    (msg.MsgType = "register" ∧ handle s c msg now now2 = handleRegister s c msg) ∨
    (msg.MsgType = "client_hello" ∧ handle s c msg now now2 = handleClientHello s c msg) ∨
    (msg.MsgType ≠ "auth" ∧ msg.MsgType ≠ "register" ∧ msg.MsgType ≠ "client_hello" ∧
      (handle s c msg now now2).world = s ∧ (handle s c msg now now2).returned = false) := by
  by_cases h1 : msg.MsgType = "auth"
  · exact Or.inl ⟨h1, handle_auth s c msg now now2 h1⟩
  by_cases h2 : msg.MsgType = "register"
  · exact Or.inr (Or.inl ⟨h2, handle_register s c msg now now2 h2⟩)
  by_cases h3 : msg.MsgType = "client_hello"
  · exact Or.inr (Or.inr (Or.inl ⟨h3, handle_client_hello s c msg now now2 h3⟩))
  refine Or.inr (Or.inr (Or.inr ⟨h1, h2, h3, ?_⟩))
  by_cases h4 : msg.MsgType = "command" ∨ msg.MsgType = "interactive_response"
  · rw [handle_command s c msg now now2 h4]
    exact ⟨handleCommand_world s msg, handleCommand_returned s msg⟩
  by_cases h5 : msg.MsgType = "interactive_prompt" ∨ msg.MsgType = "result"
  · rw [handle_result s c msg now now2 (Or.symm h5)]
    exact ⟨handleResult_world s msg, handleResult_returned s msg⟩
  by_cases h6 : msg.MsgType = "session_closed"
  · have : handle s c msg now now2 = handleSessionClosed s msg := by
      simp [handle, h6]
    rw [this]
    exact ⟨handleSessionClosed_world s msg, handleSessionClosed_returned s msg⟩
  · have : handle s c msg now now2 = { world := s } := by
      simp [handle, h1, h2, h3, h4, h5, h6]
    rw [this]
    exact ⟨rfl, rfl⟩

/-- How one message changes the controller mapping: not at all, or it is a
    `register` with role `admin` on an authenticated connection, which writes
    the entry of its `id`. -/
theorem handle_admins_cases (s : World) (c : Nat) (msg : Message) (now now2 : Nat) :
    (handle s c msg now now2).world.admins = s.admins ∨
    (msg.MsgType = "register" ∧ msg.Role = "admin" ∧ (s.conns c).authenticated = true ∧
      (handle s c msg now now2).returned = false ∧
      (handle s c msg now now2).world.admins
        = mapSet s.admins msg.ID ⟨msg.ID, msg.Role, c⟩) := by
  rcases handle_cases s c msg now now2 with ⟨_, h⟩ | ⟨hty, h⟩ | ⟨_, h⟩ | ⟨_, _, _, h, _⟩
  · left; rw [h]; exact handleAuth_admins s c msg now now2
  · by_cases hrole : msg.Role = "admin"
    · by_cases hauth : (s.conns c).authenticated = true
      · right
        rw [h, handleRegister_admin_ok s c msg hrole hauth]
        exact ⟨hty, hrole, hauth, rfl, rfl⟩
      · left
        have hauth' : (s.conns c).authenticated = false := by simpa using hauth
        rw [h, handleRegister_rejected s c msg hrole hauth']
    · left
      rw [h, handleRegister_worker s c msg hrole]
      rfl
  · left; rw [h]; exact handleClientHello_admins s c msg
  · left; rw [h]

/-- How one message changes the worker mapping: not at all, or it is a
    `register` with a role other than `admin`, or a `client_hello` whose secret
    check passes; either writes the entry of its `id`. -/
theorem handle_clients_cases (s : World) (c : Nat) (msg : Message) (now now2 : Nat) :
    (handle s c msg now now2).world.clients = s.clients ∨
    (msg.MsgType = "register" ∧ msg.Role ≠ "admin" ∧
      (handle s c msg now now2).returned = false ∧
      (handle s c msg now now2).world.clients
        = mapSet s.clients msg.ID ⟨msg.ID, msg.Role, c⟩) ∨
    (msg.MsgType = "client_hello" ∧ secretAccepted s msg ∧
      (handle s c msg now now2).returned = false ∧
      (handle s c msg now now2).world.clients
        = mapSet s.clients msg.ID ⟨msg.ID, "client", c⟩) := by
  rcases handle_cases s c msg now now2 with ⟨_, h⟩ | ⟨hty, h⟩ | ⟨hty, h⟩ | ⟨_, _, _, h, _⟩
  · left; rw [h]; exact handleAuth_clients s c msg now now2
  · by_cases hrole : msg.Role = "admin"
    · left
      by_cases hauth : (s.conns c).authenticated = true
      · rw [h, handleRegister_admin_ok s c msg hrole hauth]
        rfl
      · have hauth' : (s.conns c).authenticated = false := by simpa using hauth
        rw [h, handleRegister_rejected s c msg hrole hauth']
    · right; left
      rw [h, handleRegister_worker s c msg hrole]
      exact ⟨hty, hrole, rfl, rfl⟩
  · by_cases hacc : secretAccepted s msg
    · right; right
      rw [h, handleClientHello_accepted s c msg hacc]
      exact ⟨hty, hacc, rfl, rfl⟩
    · left
      rw [h, handleClientHello_rejected s c msg hacc]
  · left; rw [h]

/-- One message sets the `authenticated` flag of a connection only when it is
    an `auth` read from that connection and answered with `auth_ok`. -/
theorem handle_authenticated (s : World) (c c' : Nat) (msg : Message) (now now2 : Nat)
    (h : ((handle s c msg now now2).world.conns c').authenticated = true) :
    (s.conns c').authenticated = true ∨
    (c' = c ∧ msg.MsgType = "auth" ∧
      (handle s c msg now now2).sent = [(c, { MsgType := "auth_ok" })]) := by
  rcases handle_cases s c msg now now2 with ⟨hty, e⟩ | ⟨_, e⟩ | ⟨_, e⟩ | ⟨_, _, _, e, _⟩
  · rw [e] at h ⊢
    rw [handleAuth_eq] at h ⊢
    by_cases h1 : now < (authRecord s msg.ClientID).Blocked
    · rw [if_pos h1] at h
      exact Or.inl h
    · rw [if_neg h1] at h ⊢
      by_cases h2 : storedPassword s msg.ClientID ≠ msg.Password
      · rw [if_pos h2] at h
        exact Or.inl h
      · rw [if_neg h2] at h ⊢
        by_cases hc : c' = c
        · exact Or.inr ⟨hc, hty, rfl⟩
        · rw [setConn_conns_ne _ _ hc] at h
          exact Or.inl h
  · rw [e] at h
    left
    by_cases hrole : msg.Role = "admin"
    · by_cases hauth : (s.conns c).authenticated = true
      · rw [handleRegister_admin_ok s c msg hrole hauth] at h
        by_cases hc : c' = c
        · subst hc; exact hauth
        · simpa [withPeer, setConn, hc] using h
      · have hauth' : (s.conns c).authenticated = false := by simpa using hauth
        rw [handleRegister_rejected s c msg hrole hauth'] at h
        exact h
    · rw [handleRegister_worker s c msg hrole] at h
      by_cases hc : c' = c
      · subst hc; simpa [withPeer, setConn] using h
      · simpa [withPeer, setConn, hc] using h
  · rw [e] at h
    left
    by_cases hacc : secretAccepted s msg
    · rw [handleClientHello_accepted s c msg hacc] at h
      by_cases hc : c' = c
      · subst hc; simpa [withPeer, setConn] using h
      · simpa [withPeer, setConn, hc] using h
    · rw [handleClientHello_rejected s c msg hacc] at h
      exact h
  · rw [e] at h
    exact Or.inl h

/-! ## The `authenticated` flag along a run -/

theorem cleanup_authenticated (s : World) (c c' : Nat) :
    ((cleanup s c).1.conns c').authenticated = (s.conns c').authenticated := by
  by_cases hc : c' = c
  · subst hc
    rw [cleanup_conns_self]
  · rw [cleanup_conns_ne s hc]

theorem cleanup_peer (s : World) (c c' : Nat) :
    ((cleanup s c).1.conns c').peer = (s.conns c').peer := by
  by_cases hc : c' = c
  · subst hc
    rw [cleanup_conns_self]
  · rw [cleanup_conns_ne s hc]

theorem run_append (s : World) (es1 es2 : List Event) :
    run s (es1 ++ es2) = run (run s es1) es2 := by
  induction es1 generalizing s with
  | nil => rfl
  | cons e es ih => exact ih (step s e).1

/-- A step sets the `authenticated` flag of a connection only when it reads an
    `auth` from that connection and answers `auth_ok`. -/
theorem step_authenticated (s : World) (e : Event) (c' : Nat)
    (h0 : (s.conns c').authenticated = false)
    (h1 : ((step s e).1.conns c').authenticated = true) :
    ∃ msg now now2, e = .recv c' msg now now2 ∧ msg.MsgType = "auth" ∧
      (step s e).2 = [(c', { MsgType := "auth_ok" })] := by
  cases e with
  | disconnect c =>
    exfalso
    by_cases hclosed : (s.conns c).closed = true
    · simp [step, hclosed, h0] at h1
    · simp only [step, hclosed] at h1
      rw [if_neg (by simp), cleanup_authenticated, h0] at h1
      exact Bool.false_ne_true h1
  | recv c msg now now2 =>
    by_cases hclosed : (s.conns c).closed = true
    · rw [step_closed s c msg now now2 hclosed, h0] at h1
      exact absurd h1 Bool.false_ne_true
    · have hopen : (s.conns c).closed = false := by simpa using hclosed
      have hw : ((handle s c msg now now2).world.conns c').authenticated = true := by
        rw [step_recv_world s c msg now now2 hopen] at h1
        by_cases hret : (handle s c msg now now2).returned = true
        · rw [if_pos hret, cleanup_authenticated] at h1
          exact h1
        · rw [if_neg hret] at h1
          exact h1
      rcases handle_authenticated s c c' msg now now2 hw with h | ⟨hc, hty, hsent⟩
      · rw [h0] at h
        exact absurd h Bool.false_ne_true
      · subst hc
        have hret : (handle s c' msg now now2).returned = false := by
          rw [handle_auth s c' msg now now2 hty]
          exact handleAuth_returned s c' msg now now2
        refine ⟨msg, now, now2, rfl, hty, ?_⟩
        rw [step_recv_continue s c' msg now now2 hopen hret]
        exact hsent

/-- Along any run that starts with the flag of a connection unset, the flag is
    set only after an `auth` read from that connection was answered `auth_ok`. -/
theorem authenticated_after_auth (es : List Event) (s0 : World) (c : Nat)
    (h0 : (s0.conns c).authenticated = false)
    (h1 : ((run s0 es).conns c).authenticated = true) :
    AuthSucceededIn s0 es c := by
  induction es generalizing s0 with
  | nil =>
    rw [show run s0 [] = s0 from rfl, h0] at h1
    exact absurd h1 Bool.false_ne_true
  | cons e es ih =>
    by_cases hflag : ((step s0 e).1.conns c).authenticated = true
    · obtain ⟨msg, now, now2, he, hty, hsent⟩ := step_authenticated s0 e c h0 hflag
      subst he
      exact ⟨[], msg, now, now2, es, rfl, hty, hsent⟩
    · have hflag' : ((step s0 e).1.conns c).authenticated = false := by simpa using hflag
      obtain ⟨es1, msg, now, now2, es2, hes, hty, hsent⟩ := ih (step s0 e).1 hflag' h1
      exact ⟨e :: es1, msg, now, now2, es2, by rw [hes]; rfl, hty, hsent⟩

/-- In a run from the start state, a connection on which no `auth` succeeded
    has its flag unset. -/
theorem not_authenticated_of_no_auth (passwords : List (String × String))
    (es : List Event) (c : Nat)
    (h : ¬ AuthSucceededIn (initWorld passwords) es c) :
    ((run (initWorld passwords) es).conns c).authenticated = false := by
  by_contra hflag
  have hflag' : ((run (initWorld passwords) es).conns c).authenticated = true := by
    simpa using hflag
  exact h (authenticated_after_auth es (initWorld passwords) c rfl hflag')

/-! ## C5: an unauthenticated connection cannot register as a controller -/

/-- C5. In any run from the start state, a `register` message with role
    `admin` read from an open connection on which no `auth` has succeeded so
    far: the loop of that connection ends (the connection is closed); the
    handler leaves both mappings untouched, and after the cleanup that the
    return triggers every entry of either mapping is an entry that was already
    there with the same peer (none gained, none changed); no `admin_attach` is
    written to any connection. -/
theorem register_admin_unauthenticated_rejected (passwords : List (String × String))
    (es : List Event) (c : Nat) (msg : Message) (now now2 : Nat)
    (hno : ¬ AuthSucceededIn (initWorld passwords) es c)
    (hopen : ((run (initWorld passwords) es).conns c).closed = false)
    (hty : msg.MsgType = "register") (hrole : msg.Role = "admin") :
    ((step (run (initWorld passwords) es) (.recv c msg now now2)).1.conns c).closed = true ∧
    (handle (run (initWorld passwords) es) c msg now now2).returned = true ∧
    (handle (run (initWorld passwords) es) c msg now now2).world.admins
      = (run (initWorld passwords) es).admins ∧
    (handle (run (initWorld passwords) es) c msg now now2).world.clients
      = (run (initWorld passwords) es).clients ∧
    (∀ k p, mapGet (step (run (initWorld passwords) es) (.recv c msg now now2)).1.admins k
        = some p → mapGet (run (initWorld passwords) es).admins k = some p) ∧
    (∀ k p, mapGet (step (run (initWorld passwords) es) (.recv c msg now now2)).1.clients k
        = some p → mapGet (run (initWorld passwords) es).clients k = some p) ∧
    (∀ x ∈ (step (run (initWorld passwords) es) (.recv c msg now now2)).2,
        x.2.MsgType ≠ "admin_attach") :=
  register_admin_rejected_of_flag (run (initWorld passwords) es) c msg now now2 hopen hty hrole
    (not_authenticated_of_no_auth passwords es c hno)

/-- No `auth` succeeded on connection 1 in the run in which it only said hello. -/
theorem no_auth_in_hello_run :
    ¬ AuthSucceededIn (initWorld [("a", "pw")]) [.recv 1 (helloMsg "w" "s") 10 10] 1 := by
  rintro ⟨es1, msg, now, now2, es2, hes, hty, _⟩
  cases es1 with
  | nil =>
    simp only [List.nil_append, List.cons.injEq, Event.recv.injEq] at hes
    obtain ⟨⟨_, hmsg, _, _⟩, _⟩ := hes
    rw [← hmsg] at hty
    exact absurd hty (by decide)
  | cons e es1 =>
    simp at hes

/-- C5 at a concrete input: the worker of connection 1, which never
    authenticated, asks to register as controller `x`; its connection is closed
    and no entry appears in the controller mapping. -/
theorem register_admin_unauthenticated_rejected_witness :
    ((step (run (initWorld [("a", "pw")]) [.recv 1 (helloMsg "w" "s") 10 10])
        (.recv 1 (registerMsg "x" "admin") 40 40)).1.conns 1).closed = true ∧
    (∀ k p, mapGet (step (run (initWorld [("a", "pw")]) [.recv 1 (helloMsg "w" "s") 10 10])
        (.recv 1 (registerMsg "x" "admin") 40 40)).1.admins k = some p →
      mapGet (run (initWorld [("a", "pw")]) [.recv 1 (helloMsg "w" "s") 10 10]).admins k
        = some p) :=
  ⟨(register_admin_unauthenticated_rejected [("a", "pw")] [.recv 1 (helloMsg "w" "s") 10 10]
      1 (registerMsg "x" "admin") 40 40 no_auth_in_hello_run (by decide) (by decide)
      (by decide)).1,
   (register_admin_unauthenticated_rejected [("a", "pw")] [.recv 1 (helloMsg "w" "s") 10 10]
      1 (registerMsg "x" "admin") 40 40 no_auth_in_hello_run (by decide) (by decide)
      (by decide)).2.2.2.2.1⟩

/-! ## C3: what precedes an insertion into the registry -/

/-- The mappings of the handler's world bound those of the step: the cleanup
    only deletes. -/
theorem step_recv_admins_sub (s : World) (c : Nat) (msg : Message) (now now2 : Nat)
    (hopen : (s.conns c).closed = false) {k : String} {p : Peer}
    (h : mapGet (step s (.recv c msg now now2)).1.admins k = some p) :
    mapGet (handle s c msg now now2).world.admins k = some p := by
  rw [step_recv_world s c msg now now2 hopen] at h
  by_cases hret : (handle s c msg now now2).returned = true
  · rw [if_pos hret] at h
    exact cleanup_admins_sub _ c h
  · rw [if_neg hret] at h
    exact h

theorem step_recv_clients_sub (s : World) (c : Nat) (msg : Message) (now now2 : Nat)
    (hopen : (s.conns c).closed = false) {k : String} {p : Peer}
    (h : mapGet (step s (.recv c msg now now2)).1.clients k = some p) :
    mapGet (handle s c msg now now2).world.clients k = some p := by
  rw [step_recv_world s c msg now now2 hopen] at h
  by_cases hret : (handle s c msg now now2).returned = true
  · rw [if_pos hret] at h
    exact cleanup_clients_sub _ c h
  · rw [if_neg hret] at h
    exact h

/-- An entry of the controller mapping that a step creates or changes comes
    from a `register` with role `admin` read from the entry's own connection,
    which is authenticated. -/
theorem step_admins_new (s : World) (e : Event) (k : String) (p : Peer)
    (hnew : mapGet (step s e).1.admins k = some p) (hold : mapGet s.admins k ≠ some p) :
    ∃ msg now now2, e = .recv p.Conn msg now now2 ∧ msg.MsgType = "register" ∧
      msg.Role = "admin" ∧ msg.ID = k ∧ p = ⟨msg.ID, msg.Role, p.Conn⟩ ∧
      (s.conns p.Conn).authenticated = true ∧ (s.conns p.Conn).closed = false := by
  cases e with
  | disconnect c =>
    exfalso
    by_cases hclosed : (s.conns c).closed = true
    · simp [step, hclosed] at hnew
      exact hold hnew
    · simp only [step, hclosed] at hnew
      rw [if_neg (by simp)] at hnew
      exact hold (cleanup_admins_sub s c hnew)
  | recv c msg now now2 =>
    by_cases hclosed : (s.conns c).closed = true
    · rw [step_closed s c msg now now2 hclosed] at hnew
      exact absurd hnew hold
    · have hopen : (s.conns c).closed = false := by simpa using hclosed
      have hw := step_recv_admins_sub s c msg now now2 hopen hnew
      rcases handle_admins_cases s c msg now now2 with h | ⟨hty, hrole, hauth, _, h⟩
      · rw [h] at hw
        exact absurd hw hold
      · rw [h, mapGet_mapSet] at hw
        by_cases hk : msg.ID = k
        · rw [if_pos hk] at hw
          have hp : p = ⟨msg.ID, msg.Role, c⟩ := (Option.some.inj hw).symm
          have hc : p.Conn = c := by rw [hp]
          rw [hc]
          exact ⟨msg, now, now2, rfl, hty, hrole, hk, hp, hauth, hopen⟩
        · rw [if_neg hk] at hw
          exact absurd hw hold

/-- An entry of the worker mapping that a step creates or changes comes from
    a message read from the entry's own connection: a `client_hello` whose
    secret check passes, or a `register` whose role is not `admin`. -/
theorem step_clients_new (s : World) (e : Event) (k : String) (p : Peer)
    (hnew : mapGet (step s e).1.clients k = some p) (hold : mapGet s.clients k ≠ some p) :
    ∃ msg now now2, e = .recv p.Conn msg now now2 ∧ msg.ID = k ∧
      (s.conns p.Conn).closed = false ∧
      ((msg.MsgType = "client_hello" ∧ secretAccepted s msg ∧ p = ⟨msg.ID, "client", p.Conn⟩) ∨
       (msg.MsgType = "register" ∧ msg.Role ≠ "admin" ∧ p = ⟨msg.ID, msg.Role, p.Conn⟩)) := by
  cases e with
  | disconnect c =>
    exfalso
    by_cases hclosed : (s.conns c).closed = true
    · simp [step, hclosed] at hnew
      exact hold hnew
    · simp only [step, hclosed] at hnew
      rw [if_neg (by simp)] at hnew
      exact hold (cleanup_clients_sub s c hnew)
  | recv c msg now now2 =>
    by_cases hclosed : (s.conns c).closed = true
    · rw [step_closed s c msg now now2 hclosed] at hnew
      exact absurd hnew hold
    · have hopen : (s.conns c).closed = false := by simpa using hclosed
      have hw := step_recv_clients_sub s c msg now now2 hopen hnew
      rcases handle_clients_cases s c msg now now2 with
        h | ⟨hty, hrole, _, h⟩ | ⟨hty, hacc, _, h⟩
      · rw [h] at hw
        exact absurd hw hold
      · rw [h, mapGet_mapSet] at hw
        by_cases hk : msg.ID = k
        · rw [if_pos hk] at hw
          have hp : p = ⟨msg.ID, msg.Role, c⟩ := (Option.some.inj hw).symm
          have hc : p.Conn = c := by rw [hp]
          rw [hc]
          exact ⟨msg, now, now2, rfl, hk, hopen, Or.inr ⟨hty, hrole, hp⟩⟩
        · rw [if_neg hk] at hw
          exact absurd hw hold
      · rw [h, mapGet_mapSet] at hw
        by_cases hk : msg.ID = k
        · rw [if_pos hk] at hw
          have hp : p = ⟨msg.ID, "client", c⟩ := (Option.some.inj hw).symm
          have hc : p.Conn = c := by rw [hp]
          rw [hc]
          exact ⟨msg, now, now2, rfl, hk, hopen, Or.inl ⟨hty, hacc, hp⟩⟩
        · rw [if_neg hk] at hw
          exact absurd hw hold

/-- C3, refuted as stated. The first message of a fresh connection is a
    `register` with role `client` for id `w`: the worker mapping gets the entry
    of `w` although no `client_hello` was ever read and the credential table
    holds no secret for `w`. -/
theorem worker_registered_unchecked_counterexample :
    (run (initWorld []) [.recv 1 (registerMsg "w" "client") 10 10]).clients
      = [("w", ⟨"w", "client", 1⟩)] ∧
    (initWorld []).clients = [] ∧
    mapGet (run (initWorld []) [.recv 1 (registerMsg "w" "client") 10 10]).passwords "w"
      = none := by
  decide

/-- C3, amended. In any run from the start state, an entry of the controller
    mapping is created (or changed) only by a `register` with role `admin`
    read from the entry's own connection after an `auth` read from that
    connection was answered `auth_ok`; an entry of the worker mapping under id
    X is created (or changed) only by a message for id X read from the entry's
    own connection that is either a `client_hello` whose secret check passes
    (no secret on file, or the stored one presented) or a `register` whose
    role is not `admin`, which needs no approval. -/
theorem registry_insert_preconditions (passwords : List (String × String))
    (es : List Event) (e : Event) (k : String) (p : Peer) :
    (mapGet (step (run (initWorld passwords) es) e).1.admins k = some p →
      mapGet (run (initWorld passwords) es).admins k ≠ some p →
      ∃ msg now now2, e = .recv p.Conn msg now now2 ∧ msg.MsgType = "register" ∧
        msg.Role = "admin" ∧ msg.ID = k ∧
        AuthSucceededIn (initWorld passwords) es p.Conn) ∧
    (mapGet (step (run (initWorld passwords) es) e).1.clients k = some p →
      mapGet (run (initWorld passwords) es).clients k ≠ some p →
      ∃ msg now now2, e = .recv p.Conn msg now now2 ∧ msg.ID = k ∧
        ((msg.MsgType = "client_hello" ∧ secretAccepted (run (initWorld passwords) es) msg) ∨
         (msg.MsgType = "register" ∧ msg.Role ≠ "admin"))) := by
  constructor
  · intro hnew hold
    obtain ⟨msg, now, now2, he, hty, hrole, hk, _, hauth, _⟩ :=
      step_admins_new _ e k p hnew hold
    exact ⟨msg, now, now2, he, hty, hrole, hk,
      authenticated_after_auth es (initWorld passwords) p.Conn rfl hauth⟩
  · intro hnew hold
    obtain ⟨msg, now, now2, he, hk, _, h⟩ := step_clients_new _ e k p hnew hold
    refine ⟨msg, now, now2, he, hk, ?_⟩
    rcases h with ⟨hty, hacc, _⟩ | ⟨hty, hrole, _⟩
    · exact Or.inl ⟨hty, hacc⟩
    · exact Or.inr ⟨hty, hrole⟩

/-- C3, amended, at a concrete input: the entry of controller `a` appears with
    the `register` of connection 2, after the `auth` of connection 2 succeeded. -/
theorem registry_insert_preconditions_witness :
    ∃ msg now now2, Event.recv 2 (registerMsg "a" "admin") 30 30 = .recv 2 msg now now2 ∧
      msg.MsgType = "register" ∧ msg.Role = "admin" ∧ msg.ID = "a" ∧
      AuthSucceededIn (initWorld [("a", "pw")]) [.recv 2 (authMsg "a" "pw") 20 20] 2 :=
  (registry_insert_preconditions [("a", "pw")] [.recv 2 (authMsg "a" "pw") 20 20]
    (.recv 2 (registerMsg "a" "admin") 30 30) "a" ⟨"a", "admin", 2⟩).1
    (by decide) (by decide)

/-! ## C4: trust on first use of a worker secret -/

/-- How one message changes the credential table: not at all, or it is a
    `client_hello` for an id without secret, which stores the one presented. -/
theorem handle_passwords_cases (s : World) (c : Nat) (msg : Message) (now now2 : Nat) :
    (handle s c msg now now2).world.passwords = s.passwords ∨
    (msg.MsgType = "client_hello" ∧ mapGet s.passwords msg.ID = none ∧
      (handle s c msg now now2).returned = false ∧
      (handle s c msg now now2).world.passwords
        = mapSet s.passwords msg.ID msg.Password) := by
  rcases handle_cases s c msg now now2 with ⟨_, h⟩ | ⟨_, h⟩ | ⟨hty, h⟩ | ⟨_, _, _, h, _⟩
  · left; rw [h]; exact handleAuth_passwords s c msg now now2
  · left; rw [h]; exact handleRegister_passwords s c msg
  · by_cases hacc : secretAccepted s msg
    · rw [h, handleClientHello_accepted s c msg hacc]
      rcases hacc with hnone | hsome
      · exact Or.inr ⟨hty, hnone, rfl, rfl⟩
      · left
        show mapSet s.passwords msg.ID msg.Password = s.passwords
        exact mapSet_same _ _ _ hsome
    · left
      rw [h, handleClientHello_rejected s c msg hacc]
  · left; rw [h]

/-- The credential table after a step is the one the handler leaves. -/
theorem step_recv_passwords (s : World) (c : Nat) (msg : Message) (now now2 : Nat)
    (hopen : (s.conns c).closed = false) :
    (step s (.recv c msg now now2)).1.passwords = (handle s c msg now now2).world.passwords := by
  rw [step_recv_world s c msg now now2 hopen]
  by_cases hret : (handle s c msg now now2).returned = true
  · rw [if_pos hret, cleanup_passwords]
  · rw [if_neg hret]

/-- A stored secret survives every step. -/
theorem step_passwords_some (s : World) (e : Event) (k v : String)
    (h : mapGet s.passwords k = some v) : mapGet (step s e).1.passwords k = some v := by
  cases e with
  | disconnect c =>
    by_cases hclosed : (s.conns c).closed = true
    · simpa [step, hclosed] using h
    · simp only [step, hclosed]
      rw [if_neg (by simp), cleanup_passwords]
      exact h
  | recv c msg now now2 =>
    by_cases hclosed : (s.conns c).closed = true
    · rw [step_closed s c msg now now2 hclosed]
      exact h
    · have hopen : (s.conns c).closed = false := by simpa using hclosed
      rw [step_recv_passwords s c msg now now2 hopen]
      rcases handle_passwords_cases s c msg now now2 with hp | ⟨_, hnone, _, hp⟩
      · rw [hp]; exact h
      · rw [hp, mapGet_mapSet]
        by_cases hk : msg.ID = k
        · rw [hk, h] at hnone
          exact absurd hnone (by simp)
        · rw [if_neg hk]; exact h

/-- A stored secret survives every run. -/
theorem run_passwords_some (es : List Event) (s : World) (k v : String)
    (h : mapGet s.passwords k = some v) : mapGet (run s es).passwords k = some v := by
  induction es generalizing s with
  | nil => exact h
  | cons e es ih => exact ih (step s e).1 (step_passwords_some s e k v h)

/-- The cleanup of a connection that never registered closes it and does
    nothing else. -/
theorem cleanup_unregistered (s : World) (c : Nat) (h : (s.conns c).peer = none) :
    (cleanup s c).2 = [] ∧ (cleanup s c).1.admins = s.admins ∧
    (cleanup s c).1.clients = s.clients := by
  refine ⟨?_, ?_, ?_⟩
  · simp [cleanup, h]
  · rw [cleanup_admins, h]
  · rw [cleanup_clients, h]

/-- A `client_hello` whose secret check passes, as a step. -/
theorem step_hello_accepted (s : World) (c : Nat) (msg : Message) (now now2 : Nat)
    (hopen : (s.conns c).closed = false) (hty : msg.MsgType = "client_hello")
    (hacc : secretAccepted s msg) :
    (step s (.recv c msg now now2)).1.passwords = mapSet s.passwords msg.ID msg.Password ∧
    mapGet (step s (.recv c msg now now2)).1.clients msg.ID = some ⟨msg.ID, "client", c⟩ ∧
    ((step s (.recv c msg now now2)).1.conns c).peer = some ⟨msg.ID, "client", c⟩ ∧
    ((step s (.recv c msg now now2)).1.conns c).closed = false ∧
    (step s (.recv c msg now now2)).1.admins = s.admins := by
  have hh : handle s c msg now now2 = _ :=
    (handle_client_hello s c msg now now2 hty).trans (handleClientHello_accepted s c msg hacc)
  have hstep := step_recv_continue s c msg now now2 hopen (by rw [hh])
  rw [hstep, hh]
  refine ⟨rfl, ?_, ?_, ?_, rfl⟩
  · exact mapGet_mapSet_self _ _ _
  · simp [withPeer, setConn]
  · simp [withPeer, setConn, hopen]

/-- A `client_hello` whose secret check fails, as a step: nothing but the cleanup. -/
theorem step_hello_rejected (s : World) (c : Nat) (msg : Message) (now now2 : Nat)
    (hopen : (s.conns c).closed = false) (hty : msg.MsgType = "client_hello")
    (hrej : ¬ secretAccepted s msg) :
    (handle s c msg now now2).returned = true ∧ (handle s c msg now now2).sent = [] ∧
    (handle s c msg now now2).world = s ∧
    step s (.recv c msg now now2) = cleanup s c := by
  have hh : handle s c msg now now2 = _ :=
    (handle_client_hello s c msg now now2 hty).trans (handleClientHello_rejected s c msg hrej)
  have hstep := step_recv_return s c msg now now2 hopen (by rw [hh])
  rw [hstep, hh]
  exact ⟨rfl, rfl, rfl, rfl⟩

/-- C4, refuted as stated. Worker `w` provisioned the secret `s` with its first
    `client_hello` on connection 1 (the example state); a later `client_hello`
    for `w` with the secret `bad`, read from that same connection, leaves the
    credential table alone but ends the connection, whose cleanup writes a
    `session_closed` to the controller on connection 2 and deletes the
    sender's entry from the worker mapping. -/
theorem hello_mismatch_counterexample :
    mapGet (initWorld [("a", "pw")]).passwords "w" = none ∧
    mapGet demoWorld.passwords "w" = some "s" ∧
    mapGet demoWorld.clients "w" = some ⟨"w", "client", 1⟩ ∧
    (step demoWorld (.recv 1 (helloMsg "w" "bad") 40 40)).2
      = [(2, { MsgType := "session_closed", ClientID := "w",
               Error := "Client disconnected" })] ∧
    mapGet (step demoWorld (.recv 1 (helloMsg "w" "bad") 40 40)).1.clients "w" = none ∧
    (step demoWorld (.recv 1 (helloMsg "w" "bad") 40 40)).1.passwords
      = demoWorld.passwords := by
  decide

/-- C4, amended. For an id X without secret and a first `client_hello` for X
    with secret S read from an open connection: S is stored for X and the
    sender is registered as worker X. In every state `s2` a run leads to from
    there, the secret of X is still S, and a `client_hello` for X read from an
    open connection `c2`
    * with another secret is rejected: the handler returns, writes nothing and
      changes nothing, so the step is the disconnect cleanup of `c2` and no
      more: `c2` is closed, the credential table is unchanged, and when `c2`
      had not registered before nothing is written and both mappings are
      unchanged;
    * with the secret S succeeds: X maps to `c2` in the worker mapping, `c2`
      holds that peer and stays open, and the credential table is unchanged. -/
theorem hello_provision_then_check (s : World) (c : Nat) (X S : String) (m1 : Message)
    (now now2 : Nat)
    (hopen : (s.conns c).closed = false) (habsent : mapGet s.passwords X = none)
    (hty1 : m1.MsgType = "client_hello") (hid1 : m1.ID = X) (hpw1 : m1.Password = S) :
    mapGet (step s (.recv c m1 now now2)).1.passwords X = some S ∧
    mapGet (step s (.recv c m1 now now2)).1.clients X = some ⟨X, "client", c⟩ ∧
    ((step s (.recv c m1 now now2)).1.conns c).peer = some ⟨X, "client", c⟩ ∧
    ((step s (.recv c m1 now now2)).1.conns c).closed = false ∧
    ∀ (es : List Event) (s2 : World), s2 = run (step s (.recv c m1 now now2)).1 es →
      mapGet s2.passwords X = some S ∧
      ∀ (c2 : Nat) (m2 : Message) (t t2 : Nat), (s2.conns c2).closed = false →
        m2.MsgType = "client_hello" → m2.ID = X →
        (m2.Password ≠ S →
          (handle s2 c2 m2 t t2).returned = true ∧ (handle s2 c2 m2 t t2).sent = [] ∧
          (handle s2 c2 m2 t t2).world = s2 ∧
          step s2 (.recv c2 m2 t t2) = cleanup s2 c2 ∧
          ((step s2 (.recv c2 m2 t t2)).1.conns c2).closed = true ∧
          (step s2 (.recv c2 m2 t t2)).1.passwords = s2.passwords ∧
          ((s2.conns c2).peer = none →
            (step s2 (.recv c2 m2 t t2)).2 = [] ∧
            (step s2 (.recv c2 m2 t t2)).1.admins = s2.admins ∧
            (step s2 (.recv c2 m2 t t2)).1.clients = s2.clients)) ∧
        (m2.Password = S →
          mapGet (step s2 (.recv c2 m2 t t2)).1.clients X = some ⟨X, "client", c2⟩ ∧
          ((step s2 (.recv c2 m2 t t2)).1.conns c2).peer = some ⟨X, "client", c2⟩ ∧
          ((step s2 (.recv c2 m2 t t2)).1.conns c2).closed = false ∧
          (step s2 (.recv c2 m2 t t2)).1.passwords = s2.passwords) := by
  subst hid1 hpw1
  obtain ⟨f1, f2, f3, f4, _⟩ :=
    step_hello_accepted s c m1 now now2 hopen hty1 (Or.inl habsent)
  have hstored : mapGet (step s (.recv c m1 now now2)).1.passwords m1.ID = some m1.Password := by
    rw [f1]; exact mapGet_mapSet_self _ _ _
  refine ⟨hstored, f2, f3, f4, ?_⟩
  intro es s2 hs2
  have hstored2 : mapGet s2.passwords m1.ID = some m1.Password := by
    rw [hs2]; exact run_passwords_some es _ _ _ hstored
  refine ⟨hstored2, ?_⟩
  intro c2 m2 t t2 hopen2 hty2 hid2
  constructor
  · intro hne
    have hrej : ¬ secretAccepted s2 m2 := by
      unfold secretAccepted
      rw [hid2, hstored2]
      rintro (h | h)
      · exact absurd h (by simp)
      · exact hne (Option.some.inj h).symm
    obtain ⟨r1, r2, r3, r4⟩ := step_hello_rejected s2 c2 m2 t t2 hopen2 hty2 hrej
    refine ⟨r1, r2, r3, r4, ?_, ?_, ?_⟩
    · rw [r4]; exact cleanup_closed s2 c2
    · rw [r4]; exact cleanup_passwords s2 c2
    · intro hpeer
      rw [r4]
      exact cleanup_unregistered s2 c2 hpeer
  · intro heq
    have hacc : secretAccepted s2 m2 := by
      unfold secretAccepted
      rw [hid2, hstored2, heq]
      exact Or.inr rfl
    obtain ⟨g1, g2, g3, g4, _⟩ := step_hello_accepted s2 c2 m2 t t2 hopen2 hty2 hacc
    rw [hid2] at g2 g3
    refine ⟨g2, g3, g4, ?_⟩
    rw [g1]
    exact mapSet_same _ _ _ (by rw [hid2, heq]; exact hstored2)

/-- C4, amended, at a concrete input: worker `w` provisions `s` on connection
    1; after the controller authenticated, connection 3 presenting `bad` for
    `w` is closed, and connection 4 presenting `s` becomes worker `w`. -/
theorem hello_provision_then_check_witness :
    mapGet (step (initWorld [("a", "pw")]) (.recv 1 (helloMsg "w" "s") 10 10)).1.passwords "w"
      = some "s" ∧
    ((step (run (step (initWorld [("a", "pw")]) (.recv 1 (helloMsg "w" "s") 10 10)).1
        [.recv 2 (authMsg "a" "pw") 20 20]) (.recv 3 (helloMsg "w" "bad") 30 30)).1.conns
        3).closed = true ∧
    mapGet (step (run (step (initWorld [("a", "pw")]) (.recv 1 (helloMsg "w" "s") 10 10)).1
        [.recv 2 (authMsg "a" "pw") 20 20]) (.recv 4 (helloMsg "w" "s") 30 30)).1.clients "w"
      = some ⟨"w", "client", 4⟩ :=
  ⟨(hello_provision_then_check (initWorld [("a", "pw")]) 1 "w" "s" (helloMsg "w" "s") 10 10
      (by decide) (by decide) (by decide) (by decide) (by decide)).1,
   ((((hello_provision_then_check (initWorld [("a", "pw")]) 1 "w" "s" (helloMsg "w" "s") 10 10
      (by decide) (by decide) (by decide) (by decide) (by decide)).2.2.2.2
      [.recv 2 (authMsg "a" "pw") 20 20] _ rfl).2 3 (helloMsg "w" "bad") 30 30
      (by decide) (by decide) (by decide)).1 (by decide)).2.2.2.2.1,
   ((((hello_provision_then_check (initWorld [("a", "pw")]) 1 "w" "s" (helloMsg "w" "s") 10 10
      (by decide) (by decide) (by decide) (by decide) (by decide)).2.2.2.2
      [.recv 2 (authMsg "a" "pw") 20 20] _ rfl).2 4 (helloMsg "w" "s") 30 30
      (by decide) (by decide) (by decide)).2 (by decide)).1⟩

/-! ## The shape of a step -/

/-- A handler that returns has changed nothing. -/
theorem handle_returned_world (s : World) (c : Nat) (msg : Message) (now now2 : Nat)
    (hret : (handle s c msg now now2).returned = true) :
    (handle s c msg now now2).world = s := by
  rcases handle_cases s c msg now now2 with ⟨_, h⟩ | ⟨_, h⟩ | ⟨_, h⟩ | ⟨_, _, _, h, _⟩
  · rw [h, handleAuth_returned] at hret
    exact absurd hret (by simp)
  · rw [h] at hret ⊢
    by_cases hrole : msg.Role = "admin"
    · by_cases hauth : (s.conns c).authenticated = true
      · rw [handleRegister_admin_ok s c msg hrole hauth] at hret
        exact absurd hret (by simp)
      · have hauth' : (s.conns c).authenticated = false := by simpa using hauth
        rw [handleRegister_rejected s c msg hrole hauth']
    · rw [handleRegister_worker s c msg hrole] at hret
      exact absurd hret (by simp)
  · rw [h] at hret ⊢
    by_cases hacc : secretAccepted s msg
    · rw [handleClientHello_accepted s c msg hacc] at hret
      exact absurd hret (by simp)
    · rw [handleClientHello_rejected s c msg hacc]
  · exact h

/-- A step of an open connection is either the handler alone, or, when the
    handler returns, the cleanup of the unchanged state. -/
theorem step_recv_shape (s : World) (c : Nat) (msg : Message) (now now2 : Nat)
    (hopen : (s.conns c).closed = false) :
    ((handle s c msg now now2).returned = false ∧
      (step s (.recv c msg now now2)).1 = (handle s c msg now now2).world) ∨
    ((handle s c msg now now2).returned = true ∧
      (step s (.recv c msg now now2)).1 = (cleanup s c).1) := by
  by_cases hret : (handle s c msg now now2).returned = true
  · right
    refine ⟨hret, ?_⟩
    rw [step_recv_world s c msg now now2 hopen, if_pos hret,
      handle_returned_world s c msg now now2 hret]
  · left
    have hret' : (handle s c msg now now2).returned = false := by simpa using hret
    refine ⟨hret', ?_⟩
    rw [step_recv_world s c msg now now2 hopen, if_neg hret]

/-- The locals of a connection after the `auth` branch: only the flag of the
    reading connection can change, and only to set. -/
theorem handleAuth_conns (s : World) (c c' : Nat) (msg : Message) (now now2 : Nat) :
    ((handleAuth s c msg now now2).world.conns c').peer = (s.conns c').peer ∧
    ((handleAuth s c msg now now2).world.conns c').closed = (s.conns c').closed ∧
    ((s.conns c').authenticated = true →
      ((handleAuth s c msg now now2).world.conns c').authenticated = true) := by
  rw [handleAuth_eq]
  by_cases h1 : now < (authRecord s msg.ClientID).Blocked
  · rw [if_pos h1]
    exact ⟨rfl, rfl, id⟩
  · rw [if_neg h1]
    by_cases h2 : storedPassword s msg.ClientID ≠ msg.Password
    · rw [if_pos h2]
      exact ⟨rfl, rfl, id⟩
    · rw [if_neg h2]
      by_cases hc : c' = c
      · subst hc
        simp [setConn]
      · simp [setConn, hc]

/-- The locals of a connection once `c` holds a peer. -/
theorem withPeer_conns (s : World) (c c' : Nat) (p : Peer) :
    ((withPeer s c p).conns c').peer = (if c' = c then some p else (s.conns c').peer) ∧
    ((withPeer s c p).conns c').closed = (s.conns c').closed ∧
    ((withPeer s c p).conns c').authenticated = (s.conns c').authenticated := by
  by_cases hc : c' = c
  · subst hc
    simp [withPeer, setConn]
  · simp [withPeer, setConn, hc]

/-- No handler resets the peer, the flag or the closed mark of a connection. -/
theorem handle_conns_mono (s : World) (c c' : Nat) (msg : Message) (now now2 : Nat) :
    ((s.conns c').peer ≠ none → ((handle s c msg now now2).world.conns c').peer ≠ none) ∧
    ((s.conns c').authenticated = true →
      ((handle s c msg now now2).world.conns c').authenticated = true) ∧
    ((handle s c msg now now2).world.conns c').closed = (s.conns c').closed := by
  rcases handle_cases s c msg now now2 with ⟨_, h⟩ | ⟨_, h⟩ | ⟨_, h⟩ | ⟨_, _, _, h, _⟩
  · rw [h]
    obtain ⟨a1, a2, a3⟩ := handleAuth_conns s c c' msg now now2
    exact ⟨fun hp => by rw [a1]; exact hp, a3, a2⟩
  · rw [h]
    by_cases hrole : msg.Role = "admin"
    · by_cases hauth : (s.conns c).authenticated = true
      · rw [handleRegister_admin_ok s c msg hrole hauth]
        obtain ⟨a1, a2, a3⟩ := withPeer_conns s c c' ⟨msg.ID, msg.Role, c⟩
        refine ⟨fun hp => ?_, fun ha => ?_, a2⟩
        · show ((withPeer s c ⟨msg.ID, msg.Role, c⟩).conns c').peer ≠ none
          rw [a1]
          split
          · simp
          · exact hp
        · show ((withPeer s c ⟨msg.ID, msg.Role, c⟩).conns c').authenticated = true
          rw [a3]; exact ha
      · have hauth' : (s.conns c).authenticated = false := by simpa using hauth
        rw [handleRegister_rejected s c msg hrole hauth']
        exact ⟨id, id, rfl⟩
    · rw [handleRegister_worker s c msg hrole]
      obtain ⟨a1, a2, a3⟩ := withPeer_conns s c c' ⟨msg.ID, msg.Role, c⟩
      refine ⟨fun hp => ?_, fun ha => ?_, a2⟩
      · show ((withPeer s c ⟨msg.ID, msg.Role, c⟩).conns c').peer ≠ none
        rw [a1]
        split
        · simp
        · exact hp
      · show ((withPeer s c ⟨msg.ID, msg.Role, c⟩).conns c').authenticated = true
        rw [a3]; exact ha
  · rw [h]
    by_cases hacc : secretAccepted s msg
    · rw [handleClientHello_accepted s c msg hacc]
      obtain ⟨a1, a2, a3⟩ := withPeer_conns
        { s with passwords := mapSet s.passwords msg.ID msg.Password } c c'
        ⟨msg.ID, "client", c⟩
      refine ⟨fun hp => ?_, fun ha => ?_, a2⟩
      · show ((withPeer { s with passwords := mapSet s.passwords msg.ID msg.Password } c
          ⟨msg.ID, "client", c⟩).conns c').peer ≠ none
        rw [a1]
        split
        · simp
        · exact hp
      · show ((withPeer { s with passwords := mapSet s.passwords msg.ID msg.Password } c
          ⟨msg.ID, "client", c⟩).conns c').authenticated = true
        rw [a3]; exact ha
    · rw [handleClientHello_rejected s c msg hacc]
      exact ⟨id, id, rfl⟩
  · rw [h]
    exact ⟨id, id, rfl⟩

/-! ## Well-formedness of the registry along a run -/

/-- An accepted registration leaves its peer in the local variable of the
    registering connection. -/
theorem handle_registration_peer (s : World) (c : Nat) (msg : Message) (now now2 : Nat) :
    (msg.MsgType = "register" → msg.Role = "admin" → (s.conns c).authenticated = true →
      ((handle s c msg now now2).world.conns c).peer = some ⟨msg.ID, msg.Role, c⟩) ∧
    (msg.MsgType = "register" → msg.Role ≠ "admin" →
      ((handle s c msg now now2).world.conns c).peer = some ⟨msg.ID, msg.Role, c⟩) ∧
    (msg.MsgType = "client_hello" → secretAccepted s msg →
      ((handle s c msg now now2).world.conns c).peer = some ⟨msg.ID, "client", c⟩) := by
  refine ⟨fun hty hrole hauth => ?_, fun hty hrole => ?_, fun hty hacc => ?_⟩
  · rw [handle_register s c msg now now2 hty, handleRegister_admin_ok s c msg hrole hauth]
    simp [withPeer, setConn]
  · rw [handle_register s c msg now now2 hty, handleRegister_worker s c msg hrole]
    simp [withPeer, setConn]
  · rw [handle_client_hello s c msg now now2 hty, handleClientHello_accepted s c msg hacc]
    simp [withPeer, setConn]

theorem handle_wellFormed (s : World) (c : Nat) (msg : Message) (now now2 : Nat)
    (h : RegistryWellFormed s) : RegistryWellFormed (handle s c msg now now2).world := by
  obtain ⟨hA, hC⟩ := h
  obtain ⟨p1, p2, p3⟩ := handle_registration_peer s c msg now now2
  constructor
  · intro k p hget
    have old : mapGet s.admins k = some p →
        p.ID = k ∧ p.Role = "admin" ∧ ((handle s c msg now now2).world.conns p.Conn).peer ≠ none ∧
        ((handle s c msg now now2).world.conns p.Conn).authenticated = true := by
      intro ho
      obtain ⟨a, b, d, e⟩ := hA k p ho
      obtain ⟨m1, m2, _⟩ := handle_conns_mono s c p.Conn msg now now2
      exact ⟨a, b, m1 d, m2 e⟩
    rcases handle_admins_cases s c msg now now2 with hs | ⟨hty, hrole, hauth, _, hs⟩
    · rw [hs] at hget
      exact old hget
    · rw [hs, mapGet_mapSet] at hget
      by_cases hk : msg.ID = k
      · rw [if_pos hk] at hget
        have hp : p = ⟨msg.ID, msg.Role, c⟩ := (Option.some.inj hget).symm
        subst hp
        refine ⟨hk, hrole, ?_, ?_⟩
        · show ((handle s c msg now now2).world.conns c).peer ≠ none
          rw [p1 hty hrole hauth]
          simp
        · exact (handle_conns_mono s c c msg now now2).2.1 hauth
      · rw [if_neg hk] at hget
        exact old hget
  · intro k p hget
    have old : mapGet s.clients k = some p →
        p.ID = k ∧ p.Role ≠ "admin" ∧
        ((handle s c msg now now2).world.conns p.Conn).peer ≠ none := by
      intro ho
      obtain ⟨a, b, d⟩ := hC k p ho
      exact ⟨a, b, (handle_conns_mono s c p.Conn msg now now2).1 d⟩
    rcases handle_clients_cases s c msg now now2 with
      hs | ⟨hty, hrole, _, hs⟩ | ⟨hty, hacc, _, hs⟩
    · rw [hs] at hget
      exact old hget
    · rw [hs, mapGet_mapSet] at hget
      by_cases hk : msg.ID = k
      · rw [if_pos hk] at hget
        have hp : p = ⟨msg.ID, msg.Role, c⟩ := (Option.some.inj hget).symm
        subst hp
        refine ⟨hk, hrole, ?_⟩
        show ((handle s c msg now now2).world.conns c).peer ≠ none
        rw [p2 hty hrole]
        simp
      · rw [if_neg hk] at hget
        exact old hget
    · rw [hs, mapGet_mapSet] at hget
      by_cases hk : msg.ID = k
      · rw [if_pos hk] at hget
        have hp : p = ⟨msg.ID, "client", c⟩ := (Option.some.inj hget).symm
        subst hp
        refine ⟨hk, (by decide : "client" ≠ "admin"), ?_⟩
        show ((handle s c msg now now2).world.conns c).peer ≠ none
        rw [p3 hty hacc]
        simp
      · rw [if_neg hk] at hget
        exact old hget

theorem cleanup_wellFormed (s : World) (c : Nat) (h : RegistryWellFormed s) :
    RegistryWellFormed (cleanup s c).1 := by
  obtain ⟨hA, hC⟩ := h
  constructor
  · intro k p hget
    obtain ⟨a, b, d, e⟩ := hA k p (cleanup_admins_sub s c hget)
    refine ⟨a, b, ?_, ?_⟩
    · rw [cleanup_peer]; exact d
    · rw [cleanup_authenticated]; exact e
  · intro k p hget
    obtain ⟨a, b, d⟩ := hC k p (cleanup_clients_sub s c hget)
    refine ⟨a, b, ?_⟩
    rw [cleanup_peer]; exact d

theorem step_disconnect_eq (s : World) (c : Nat) (hopen : (s.conns c).closed = false) :
    step s (.disconnect c) = cleanup s c := by
  simp [step, hopen]

theorem step_disconnect_closed (s : World) (c : Nat) (hclosed : (s.conns c).closed = true) :
    step s (.disconnect c) = (s, []) := by
  simp [step, hclosed]

theorem step_wellFormed (s : World) (e : Event) (h : RegistryWellFormed s) :
    RegistryWellFormed (step s e).1 := by
  cases e with
  | disconnect c =>
    by_cases hclosed : (s.conns c).closed = true
    · rw [step_disconnect_closed s c hclosed]; exact h
    · have hopen : (s.conns c).closed = false := by simpa using hclosed
      rw [step_disconnect_eq s c hopen]
      exact cleanup_wellFormed s c h
  | recv c msg now now2 =>
    by_cases hclosed : (s.conns c).closed = true
    · rw [step_closed s c msg now now2 hclosed]; exact h
    · have hopen : (s.conns c).closed = false := by simpa using hclosed
      rcases step_recv_shape s c msg now now2 hopen with ⟨_, hs⟩ | ⟨_, hs⟩
      · rw [hs]; exact handle_wellFormed s c msg now now2 h
      · rw [hs]; exact cleanup_wellFormed s c h

theorem run_wellFormed (es : List Event) (s : World) (h : RegistryWellFormed s) :
    RegistryWellFormed (run s es) := by
  induction es generalizing s with
  | nil => exact h
  | cons e es ih => exact ih (step s e).1 (step_wellFormed s e h)

theorem initWorld_wellFormed (passwords : List (String × String)) :
    RegistryWellFormed (initWorld passwords) := by
  constructor <;> intro k p hget <;> simp [initWorld, mapGet] at hget

/-! ## C8: the life of a registry entry -/

/-- The cleanup keeps a worker entry unless the closing connection is
    registered as a worker under the same id. -/
theorem cleanup_clients_kept (s : World) (c : Nat) (k : String) (p : Peer)
    (h : mapGet s.clients k = some p) :
    mapGet (cleanup s c).1.clients k = some p ∨
    ∃ q, (s.conns c).peer = some q ∧ q.ID = k ∧ q.Role = "client" := by
  rw [cleanup_clients]
  cases hq : (s.conns c).peer with
  | none => exact Or.inl h
  | some q =>
    by_cases hr : q.Role = "client"
    · by_cases hk : q.ID = k
      · exact Or.inr ⟨q, rfl, hk, hr⟩
      · left
        simp only [hr, if_true]
        rw [mapGet_mapDel, if_neg hk]
        exact h
    · left
      simp only [hr, if_false]
      exact h

/-- The cleanup keeps a controller entry unless the closing connection is
    registered as a controller under the same id. -/
theorem cleanup_admins_kept (s : World) (c : Nat) (k : String) (p : Peer)
    (h : mapGet s.admins k = some p) :
    mapGet (cleanup s c).1.admins k = some p ∨
    ∃ q, (s.conns c).peer = some q ∧ q.ID = k ∧ q.Role = "admin" := by
  rw [cleanup_admins]
  cases hq : (s.conns c).peer with
  | none => exact Or.inl h
  | some q =>
    by_cases hr : q.Role = "admin"
    · by_cases hk : q.ID = k
      · exact Or.inr ⟨q, rfl, hk, hr⟩
      · left
        simp only [hr, if_true]
        rw [mapGet_mapDel, if_neg hk]
        exact h
    · left
      simp only [hr, if_false]
      exact h

/-- The cleanup removes the entry under the id of the closing connection's
    peer from the mapping of that peer's role. -/
theorem cleanup_removes (s : World) (c : Nat) (q : Peer) (hq : (s.conns c).peer = some q) :
    (q.Role = "admin" → mapGet (cleanup s c).1.admins q.ID = none) ∧
    (q.Role = "client" → mapGet (cleanup s c).1.clients q.ID = none) := by
  constructor
  · intro hr
    rw [cleanup_admins, hq]
    simp only [hr, if_true]
    rw [mapGet_mapDel, if_pos rfl]
  · intro hr
    rw [cleanup_clients, hq]
    simp only [hr, if_true]
    rw [mapGet_mapDel, if_pos rfl]

/-- A step that closes an open connection ends in the state its cleanup leaves. -/
theorem step_closing_world (s : World) (e : Event)
    (hopen : (s.conns e.conn).closed = false)
    (hclosed : ((step s e).1.conns e.conn).closed = true) :
    (step s e).1 = (cleanup s e.conn).1 := by
  cases e with
  | disconnect c =>
    rw [step_disconnect_eq s c hopen]
    rfl
  | recv c msg now now2 =>
    rcases step_recv_shape s c msg now now2 hopen with ⟨_, hs⟩ | ⟨_, hs⟩
    · exfalso
      rw [hs] at hclosed
      have hmono := (handle_conns_mono s c c msg now now2).2.2
      have hopen' : (s.conns c).closed = false := hopen
      have hclosed' : ((handle s c msg now now2).world.conns c).closed = true := hclosed
      rw [hmono, hopen'] at hclosed'
      exact absurd hclosed' (by simp)
    · exact hs

/-- A step keeps a worker entry unless it is a registration under the same id
    or ends a connection registered as a worker under that id. -/
theorem step_clients_kept (s : World) (e : Event) (k : String) (p : Peer)
    (h : mapGet s.clients k = some p) :
    mapGet (step s e).1.clients k = some p ∨ e.registers k ∨
    ∃ q, (s.conns e.conn).peer = some q ∧ q.ID = k ∧ q.Role = "client" ∧
      (s.conns e.conn).closed = false ∧ ((step s e).1.conns e.conn).closed = true := by
  cases e with
  | disconnect c =>
    by_cases hclosed : (s.conns c).closed = true
    · rw [step_disconnect_closed s c hclosed]; exact Or.inl h
    · have hopen : (s.conns c).closed = false := by simpa using hclosed
      rw [step_disconnect_eq s c hopen]
      rcases cleanup_clients_kept s c k p h with hk | ⟨q, hq, hk, hr⟩
      · exact Or.inl hk
      · exact Or.inr (Or.inr ⟨q, hq, hk, hr, hopen, cleanup_closed s c⟩)
  | recv c msg now now2 =>
    by_cases hclosed : (s.conns c).closed = true
    · rw [step_closed s c msg now now2 hclosed]; exact Or.inl h
    · have hopen : (s.conns c).closed = false := by simpa using hclosed
      rcases step_recv_shape s c msg now now2 hopen with ⟨_, hs⟩ | ⟨_, hs⟩
      · rw [hs]
        rcases handle_clients_cases s c msg now now2 with
          hc | ⟨hty, _, _, hc⟩ | ⟨hty, _, _, hc⟩
        · rw [hc]; exact Or.inl h
        · by_cases hk : msg.ID = k
          · exact Or.inr (Or.inl ⟨Or.inl hty, hk⟩)
          · rw [hc, mapGet_mapSet_ne _ _ hk]; exact Or.inl h
        · by_cases hk : msg.ID = k
          · exact Or.inr (Or.inl ⟨Or.inr hty, hk⟩)
          · rw [hc, mapGet_mapSet_ne _ _ hk]; exact Or.inl h
      · rw [hs]
        rcases cleanup_clients_kept s c k p h with hk | ⟨q, hq, hk, hr⟩
        · exact Or.inl hk
        · exact Or.inr (Or.inr ⟨q, hq, hk, hr, hopen, cleanup_closed s c⟩)

/-- A step keeps a controller entry unless it is a registration under the same
    id or ends a connection registered as a controller under that id. -/
theorem step_admins_kept (s : World) (e : Event) (k : String) (p : Peer)
    (h : mapGet s.admins k = some p) :
    mapGet (step s e).1.admins k = some p ∨ e.registers k ∨
    ∃ q, (s.conns e.conn).peer = some q ∧ q.ID = k ∧ q.Role = "admin" ∧
      (s.conns e.conn).closed = false ∧ ((step s e).1.conns e.conn).closed = true := by
  cases e with
  | disconnect c =>
    by_cases hclosed : (s.conns c).closed = true
    · rw [step_disconnect_closed s c hclosed]; exact Or.inl h
    · have hopen : (s.conns c).closed = false := by simpa using hclosed
      rw [step_disconnect_eq s c hopen]
      rcases cleanup_admins_kept s c k p h with hk | ⟨q, hq, hk, hr⟩
      · exact Or.inl hk
      · exact Or.inr (Or.inr ⟨q, hq, hk, hr, hopen, cleanup_closed s c⟩)
  | recv c msg now now2 =>
    by_cases hclosed : (s.conns c).closed = true
    · rw [step_closed s c msg now now2 hclosed]; exact Or.inl h
    · have hopen : (s.conns c).closed = false := by simpa using hclosed
      rcases step_recv_shape s c msg now now2 hopen with ⟨_, hs⟩ | ⟨_, hs⟩
      · rw [hs]
        rcases handle_admins_cases s c msg now now2 with hc | ⟨hty, _, _, _, hc⟩
        · rw [hc]; exact Or.inl h
        · by_cases hk : msg.ID = k
          · exact Or.inr (Or.inl ⟨Or.inl hty, hk⟩)
          · rw [hc, mapGet_mapSet_ne _ _ hk]; exact Or.inl h
      · rw [hs]
        rcases cleanup_admins_kept s c k p h with hk | ⟨q, hq, hk, hr⟩
        · exact Or.inl hk
        · exact Or.inr (Or.inr ⟨q, hq, hk, hr, hopen, cleanup_closed s c⟩)

/-- C8, refuted as stated. Worker `w` says hello on connection 1 and then, with
    the same secret, on connection 2: connection 1 is still open and holds the
    peer it registered, but the only registry entry refers to connection 2. -/
theorem superseded_connection_counterexample :
    ((run (initWorld []) [.recv 1 (helloMsg "w" "s") 10 10,
        .recv 2 (helloMsg "w" "s") 20 20]).conns 1).closed = false ∧
    ((run (initWorld []) [.recv 1 (helloMsg "w" "s") 10 10,
        .recv 2 (helloMsg "w" "s") 20 20]).conns 1).peer = some ⟨"w", "client", 1⟩ ∧
    (run (initWorld []) [.recv 1 (helloMsg "w" "s") 10 10,
        .recv 2 (helloMsg "w" "s") 20 20]).admins = [] ∧
    (run (initWorld []) [.recv 1 (helloMsg "w" "s") 10 10,
        .recv 2 (helloMsg "w" "s") 20 20]).clients = [("w", ⟨"w", "client", 2⟩)] := by
  decide

/-- C8, amended. In every state a run from the start state leads to:
    every registry entry is keyed by the id of its peer, sits in the mapping
    of its role and refers to a connection that has completed a registration;
    a step that ends a connection removes that connection's own entry (the
    entry of its current peer, found under the peer's id in the mapping of the
    peer's role, `admin` or `client`); and a step keeps every entry in place
    unless it is a
    registration under the same id (from any connection: the last writer wins)
    or it ends a connection registered under that id in that role. -/
theorem registry_entry_lifecycle (passwords : List (String × String)) (es : List Event) :
    RegistryWellFormed (run (initWorld passwords) es) ∧
    (∀ (e : Event) (q : Peer),
      ((run (initWorld passwords) es).conns e.conn).closed = false →
      ((step (run (initWorld passwords) es) e).1.conns e.conn).closed = true →
      ((run (initWorld passwords) es).conns e.conn).peer = some q →
      (q.Role = "admin" → mapGet (run (initWorld passwords) es).admins q.ID = some q →
        mapGet (step (run (initWorld passwords) es) e).1.admins q.ID = none) ∧
      (q.Role = "client" → mapGet (run (initWorld passwords) es).clients q.ID = some q →
        mapGet (step (run (initWorld passwords) es) e).1.clients q.ID = none)) ∧
    (∀ (e : Event) (k : String) (p : Peer),
      (mapGet (run (initWorld passwords) es).admins k = some p →
        mapGet (step (run (initWorld passwords) es) e).1.admins k = some p ∨ e.registers k ∨
        ∃ q, ((run (initWorld passwords) es).conns e.conn).peer = some q ∧ q.ID = k ∧
          q.Role = "admin" ∧ ((run (initWorld passwords) es).conns e.conn).closed = false ∧
          ((step (run (initWorld passwords) es) e).1.conns e.conn).closed = true) ∧
      (mapGet (run (initWorld passwords) es).clients k = some p →
        mapGet (step (run (initWorld passwords) es) e).1.clients k = some p ∨ e.registers k ∨
        ∃ q, ((run (initWorld passwords) es).conns e.conn).peer = some q ∧ q.ID = k ∧
          q.Role = "client" ∧ ((run (initWorld passwords) es).conns e.conn).closed = false ∧
          ((step (run (initWorld passwords) es) e).1.conns e.conn).closed = true)) := by
  refine ⟨run_wellFormed es _ (initWorld_wellFormed passwords), ?_, ?_⟩
  · intro e q hopen hclosed hq
    rw [step_closing_world _ e hopen hclosed]
    exact ⟨fun hr _ => (cleanup_removes _ e.conn q hq).1 hr,
      fun hr _ => (cleanup_removes _ e.conn q hq).2 hr⟩
  · intro e k p
    exact ⟨step_admins_kept _ e k p, step_clients_kept _ e k p⟩

/-- C8, amended, at a concrete input: in the run of the example, the entry of
    worker `w` is keyed by its id, is not a controller's, and refers to
    connection 1, which has registered; when connection 1 disconnects, the
    entry is gone. -/
theorem registry_entry_lifecycle_witness :
    ((⟨"w", "client", 1⟩ : Peer).ID = "w" ∧ (⟨"w", "client", 1⟩ : Peer).Role ≠ "admin" ∧
      ((run (initWorld [("a", "pw")]) [.recv 1 (helloMsg "w" "s") 10 10,
        .recv 2 (authMsg "a" "pw") 20 20]).conns 1).peer ≠ none) ∧
    mapGet (step (run (initWorld [("a", "pw")]) [.recv 1 (helloMsg "w" "s") 10 10,
        .recv 2 (authMsg "a" "pw") 20 20]) (.disconnect 1)).1.clients "w" = none :=
  ⟨(registry_entry_lifecycle [("a", "pw")] [.recv 1 (helloMsg "w" "s") 10 10,
      .recv 2 (authMsg "a" "pw") 20 20]).1.2 "w" ⟨"w", "client", 1⟩ (by decide),
   ((registry_entry_lifecycle [("a", "pw")] [.recv 1 (helloMsg "w" "s") 10 10,
      .recv 2 (authMsg "a" "pw") 20 20]).2.1 (.disconnect 1) ⟨"w", "client", 1⟩
      (by decide) (by decide) (by decide)).2 (by decide) (by decide)⟩

/-! ## C9: the two mappings are not kept disjoint -/

/-- C9, refuted as stated. Controller `a` authenticates and registers on
    connection 1, then connection 2 registers as a worker under the same id:
    `a` is a key of both mappings. -/
theorem id_in_both_mappings_counterexample :
    mapGet (run (initWorld [("a", "pw")]) [.recv 1 (authMsg "a" "pw") 10 10,
        .recv 1 (registerMsg "a" "admin") 20 20,
        .recv 2 (registerMsg "a" "client") 30 30]).admins "a" = some ⟨"a", "admin", 1⟩ ∧
    mapGet (run (initWorld [("a", "pw")]) [.recv 1 (authMsg "a" "pw") 10 10,
        .recv 1 (registerMsg "a" "admin") 20 20,
        .recv 2 (registerMsg "a" "client") 30 30]).clients "a" = some ⟨"a", "client", 2⟩ := by
  decide

/-- C9, amended. A registration read from an open connection writes its id
    into exactly one of the two mappings and leaves the other as it was: a
    `register` with role `admin` on an authenticated connection writes the
    controller mapping, a `register` with any other role and a `client_hello`
    whose secret check passes write the worker mapping. Whether the id is a
    key of the other mapping is not looked at. -/
theorem registration_writes_one_mapping (s : World) (c : Nat) (msg : Message)
    (now now2 : Nat) (hopen : (s.conns c).closed = false) :
    (msg.MsgType = "register" → msg.Role = "admin" → (s.conns c).authenticated = true →
      (step s (.recv c msg now now2)).1.admins = mapSet s.admins msg.ID ⟨msg.ID, msg.Role, c⟩ ∧
      (step s (.recv c msg now now2)).1.clients = s.clients) ∧
    (msg.MsgType = "register" → msg.Role ≠ "admin" →
      (step s (.recv c msg now now2)).1.clients
        = mapSet s.clients msg.ID ⟨msg.ID, msg.Role, c⟩ ∧
      (step s (.recv c msg now now2)).1.admins = s.admins) ∧
    (msg.MsgType = "client_hello" → secretAccepted s msg →
      (step s (.recv c msg now now2)).1.clients
        = mapSet s.clients msg.ID ⟨msg.ID, "client", c⟩ ∧
      (step s (.recv c msg now now2)).1.admins = s.admins) := by
  refine ⟨fun hty hrole hauth => ?_, fun hty hrole => ?_, fun hty hacc => ?_⟩
  · have hh : handle s c msg now now2 = _ :=
      (handle_register s c msg now now2 hty).trans (handleRegister_admin_ok s c msg hrole hauth)
    rw [step_recv_continue s c msg now now2 hopen (by rw [hh]), hh]
    exact ⟨rfl, rfl⟩
  · have hh : handle s c msg now now2 = _ :=
      (handle_register s c msg now now2 hty).trans (handleRegister_worker s c msg hrole)
    rw [step_recv_continue s c msg now now2 hopen (by rw [hh]), hh]
    exact ⟨rfl, rfl⟩
  · have hh : handle s c msg now now2 = _ :=
      (handle_client_hello s c msg now now2 hty).trans (handleClientHello_accepted s c msg hacc)
    rw [step_recv_continue s c msg now now2 hopen (by rw [hh]), hh]
    exact ⟨rfl, rfl⟩

/-- C9, amended, at a concrete input: the worker registration of id `a` on
    connection 2 writes the worker mapping and leaves the controller mapping,
    in which `a` is a key, as it was. -/
theorem registration_writes_one_mapping_witness :
    (step (run (initWorld [("a", "pw")]) [.recv 1 (authMsg "a" "pw") 10 10,
        .recv 1 (registerMsg "a" "admin") 20 20])
      (.recv 2 (registerMsg "a" "client") 30 30)).1.admins
      = (run (initWorld [("a", "pw")]) [.recv 1 (authMsg "a" "pw") 10 10,
        .recv 1 (registerMsg "a" "admin") 20 20]).admins :=
  (((registration_writes_one_mapping (run (initWorld [("a", "pw")])
      [.recv 1 (authMsg "a" "pw") 10 10, .recv 1 (registerMsg "a" "admin") 20 20])
      2 (registerMsg "a" "client") 30 30 (by decide)).2.1) (by decide) (by decide)).2

/-! ## C1: the lockout does not start for an identity without password -/

/-- C1 at its failing input. Identity `ghost` has no entry in the credential
    table, no failure on record and no lockout. Three `auth` messages for it
    with the empty password, which is not a stored password of `ghost`, are
    each answered `auth_ok`; afterwards no lockout is recorded, connection 1 is
    authenticated, and a fourth one is answered `auth_ok` as well. -/
theorem lockout_skipped_for_unknown_identity :
    mapGet (initWorld [("a", "pw")]).passwords "ghost" = none ∧
    authRecord (initWorld [("a", "pw")]) "ghost" = { Attempts := 0, Blocked := 0 } ∧
    (step (initWorld [("a", "pw")]) (.recv 1 (authMsg "ghost" "") 10 10)).2
      = [(1, { MsgType := "auth_ok" })] ∧
    (step (run (initWorld [("a", "pw")]) [.recv 1 (authMsg "ghost" "") 10 10])
      (.recv 1 (authMsg "ghost" "") 11 11)).2 = [(1, { MsgType := "auth_ok" })] ∧
    (step (run (initWorld [("a", "pw")]) [.recv 1 (authMsg "ghost" "") 10 10,
      .recv 1 (authMsg "ghost" "") 11 11]) (.recv 1 (authMsg "ghost" "") 12 12)).2
      = [(1, { MsgType := "auth_ok" })] ∧
    authRecord (run (initWorld [("a", "pw")]) [.recv 1 (authMsg "ghost" "") 10 10,
      .recv 1 (authMsg "ghost" "") 11 11, .recv 1 (authMsg "ghost" "") 12 12]) "ghost"
      = { Attempts := 0, Blocked := 0 } ∧
    ((run (initWorld [("a", "pw")]) [.recv 1 (authMsg "ghost" "") 10 10,
      .recv 1 (authMsg "ghost" "") 11 11, .recv 1 (authMsg "ghost" "") 12 12]).conns
      1).authenticated = true ∧
    (step (run (initWorld [("a", "pw")]) [.recv 1 (authMsg "ghost" "") 10 10,
      .recv 1 (authMsg "ghost" "") 11 11, .recv 1 (authMsg "ghost" "") 12 12])
      (.recv 2 (authMsg "ghost" "") 13 13)).2 = [(2, { MsgType := "auth_ok" })] := by
  decide

/-! ## C11: an attempt during the lockout is not consumed -/

/-- C11. An `auth` message for identity `id` (the identity `auth` reads from
    the message, its `client_id`) read from an open connection while the
    lockout of `id` is active: the reply is the `auth_fail` with the lockout
    text, and the step changes nothing, so the attempt table (the record of
    `id` and those of all others), the credential table, both mappings and the
    `authenticated` flag of the connection are as before and the connection
    stays open. -/
theorem locked_auth_consumes_nothing (s : World) (id : String) (c : Nat) (msg : Message)
    (now now2 : Nat)
    (hopen : (s.conns c).closed = false)
    (hty : msg.MsgType = "auth") (hid : msg.ClientID = id)
    (hlock : now < (authRecord s id).Blocked) :
    (step s (.recv c msg now now2)).2 = [(c, lockoutReply)] ∧
    lockoutReply.MsgType = "auth_fail" ∧
    (step s (.recv c msg now now2)).1 = s ∧
    authRecord (step s (.recv c msg now now2)).1 id = authRecord s id ∧
    (step s (.recv c msg now now2)).1.authState = s.authState ∧
    (step s (.recv c msg now now2)).1.passwords = s.passwords ∧
    (step s (.recv c msg now now2)).1.admins = s.admins ∧
    (step s (.recv c msg now now2)).1.clients = s.clients ∧
    ((step s (.recv c msg now now2)).1.conns c).authenticated = (s.conns c).authenticated ∧
    ((step s (.recv c msg now now2)).1.conns c).closed = false := by
  subst hid
  rw [step_auth_locked s c msg now now2 hopen hty hlock]
  exact ⟨rfl, rfl, rfl, rfl, rfl, rfl, rfl, rfl, rfl, hopen⟩

/-- C11 at a concrete input: controller `a` is locked out until time 100; its
    right password at time 60 gets the lockout reply and the attempt table is
    as before. -/
theorem locked_auth_consumes_nothing_witness :
    (step lockedWorld (.recv 1 (authMsg "a" "pw") 60 60)).2 = [(1, lockoutReply)] ∧
    (step lockedWorld (.recv 1 (authMsg "a" "pw") 60 60)).1.authState
      = lockedWorld.authState :=
  ⟨(locked_auth_consumes_nothing lockedWorld "a" 1 (authMsg "a" "pw") 60 60
      (by decide) (by decide) (by decide) (by decide)).1,
   (locked_auth_consumes_nothing lockedWorld "a" 1 (authMsg "a" "pw") 60 60
      (by decide) (by decide) (by decide) (by decide)).2.2.2.2.1⟩

/-! ## C16: a command for an absent worker -/

/-- C16. A `command` message read from an open connection whose `client_id` is
    not a key of the worker mapping: nothing is written to any connection, the
    state (both mappings, the credential table, the attempt table, the locals
    of every connection) is unchanged, and the connection stays open. -/
theorem command_for_absent_worker_noop (s : World) (c : Nat) (msg : Message)
    (now now2 : Nat)
    (hopen : (s.conns c).closed = false)
    (hty : msg.MsgType = "command")
    (habsent : mapGet s.clients msg.ClientID = none) :
    (step s (.recv c msg now now2)).2 = [] ∧
    (step s (.recv c msg now now2)).1 = s ∧
    (step s (.recv c msg now now2)).1.admins = s.admins ∧
    (step s (.recv c msg now now2)).1.clients = s.clients ∧
    (step s (.recv c msg now now2)).1.passwords = s.passwords ∧
    (step s (.recv c msg now now2)).1.authState = s.authState ∧
    (handle s c msg now now2).returned = false ∧
    ((step s (.recv c msg now now2)).1.conns c).closed = false := by
  have hret : (handle s c msg now now2).returned = false := by
    rw [handle_command s c msg now now2 (Or.inl hty)]
    exact handleCommand_returned s msg
  rw [step_command s c msg now now2 hopen (Or.inl hty)]
  refine ⟨?_, rfl, rfl, rfl, rfl, rfl, hret, hopen⟩
  simp [handleCommand, habsent]

/-- C16 at a concrete input: in the example state no worker `zz` is
    registered, and the command the controller sends for it is dropped. -/
theorem command_for_absent_worker_noop_witness :
    (step demoWorld (.recv 2 { demoCommand with ClientID := "zz" } 40 40)).2 = [] :=
  (command_for_absent_worker_noop demoWorld 2 { demoCommand with ClientID := "zz" } 40 40
    (by decide) (by decide) (by decide)).1

/-! ## C17: the field that names the identity of an `auth` -/

/-- The `auth` branch reads the `client_id` and the password of the message,
    and no other field. -/
theorem handleAuth_congr (s : World) (c : Nat) (m m' : Message) (now now2 : Nat)
    (hcid : m.ClientID = m'.ClientID) (hpw : m.Password = m'.Password) :
    handleAuth s c m now now2 = handleAuth s c m' now now2 := by
  unfold handleAuth
  rw [hcid, hpw]

/-- C17, refuted as stated. Two `auth` messages with the same `id` (`a`) and the
    same password (the one stored for `a`), processed in the same state at the
    same time, differ only in `client_id`: the one whose `client_id` is `a` is
    answered `auth_ok`; the one whose `client_id` is empty is answered
    `auth_fail`, and the failure is recorded under the empty identity while no
    record of `a` is made. -/
theorem auth_id_field_counterexample :
    (step (initWorld [("a", "pw")])
      (.recv 1 { MsgType := "auth", ID := "a", ClientID := "a", Password := "pw" } 10 10)).2
      = [(1, { MsgType := "auth_ok" })] ∧
    (step (initWorld [("a", "pw")])
      (.recv 1 { MsgType := "auth", ID := "a", ClientID := "", Password := "pw" } 10 10)).2
      = [(1, mismatchReply)] ∧
    (step (initWorld [("a", "pw")])
      (.recv 1 { MsgType := "auth", ID := "a", ClientID := "", Password := "pw" } 10 10)).1.authState
      = [("", { Attempts := 1, Blocked := 0 })] := by
  decide

/-- C17, amended. The identity whose stored password and attempt record an
    `auth` consults is the one in the message's `client_id` field: two `auth`
    messages that agree on `client_id` and password, read from the same
    connection in the same state with the same clock readings, lead to the same
    state and the same writes whatever their other fields, `id` included. -/
theorem auth_identity_is_client_id (s : World) (c : Nat) (m m' : Message) (now now2 : Nat)
    (hty : m.MsgType = "auth") (hty' : m'.MsgType = "auth")
    (hcid : m.ClientID = m'.ClientID) (hpw : m.Password = m'.Password) :
    step s (.recv c m now now2) = step s (.recv c m' now now2) := by
  have hh : handle s c m now now2 = handle s c m' now now2 := by
    rw [handle_auth s c m now now2 hty, handle_auth s c m' now now2 hty']
    exact handleAuth_congr s c m m' now now2 hcid hpw
  simp only [step, hh]

/-- C17, amended, at a concrete input: with `client_id` `a` and the stored
    password, the `auth` whose `id` is `zz` is answered as the one whose `id`
    is `a`. -/
theorem auth_identity_is_client_id_witness :
    step (initWorld [("a", "pw")])
      (.recv 1 { MsgType := "auth", ID := "zz", ClientID := "a", Password := "pw" } 10 10)
    = step (initWorld [("a", "pw")]) (.recv 1 (authMsg "a" "pw") 10 10) :=
  auth_identity_is_client_id (initWorld [("a", "pw")]) 1
    { MsgType := "auth", ID := "zz", ClientID := "a", Password := "pw" } (authMsg "a" "pw")
    10 10 (by decide) (by decide) (by decide) (by decide)

/-! ## C12: the credential table is written once per id -/

/-- The `client_hello` branch is its secret check followed, when the check
    passes, by the registration of the sender. -/
theorem handleClientHello_phases (s : World) (c : Nat) (msg : Message) :
    handleClientHello s c msg =
      match helloCheck s msg with
      | none => { world := s, returned := true }
      | some s1 => helloRegister s1 c msg := by
  unfold handleClientHello helloCheck
  cases hp : mapGet s.passwords msg.ID with
  | none => rfl
  | some stored =>
    by_cases hne : stored ≠ msg.Password
    · simp [hne]
    · simp only [hne, if_false]
      rfl

/-- The secret check touches nothing but the credential table. -/
theorem helloCheck_frame (s s1 : World) (msg : Message) (h : helloCheck s msg = some s1) :
    s1.clients = s.clients ∧ s1.admins = s.admins ∧ s1.authState = s.authState ∧
    s1.conns = s.conns := by
  unfold helloCheck at h
  cases hp : mapGet s.passwords msg.ID with
  | none =>
    rw [hp] at h
    simp only [Option.some.injEq] at h
    subst h
    exact ⟨rfl, rfl, rfl, rfl⟩
  | some stored =>
    rw [hp] at h
    by_cases hne : stored ≠ msg.Password
    · simp [hne] at h
    · simp only [hne, if_false, Option.some.injEq] at h
      subst h
      exact ⟨rfl, rfl, rfl, rfl⟩

/-- A step that changes the credential table is a `client_hello` for an id
    without secret, read from an open connection; it stores the secret presented. -/
theorem step_passwords_changed (s : World) (e : Event)
    (h : (step s e).1.passwords ≠ s.passwords) :
    ∃ c msg now now2, e = .recv c msg now now2 ∧ msg.MsgType = "client_hello" ∧
      mapGet s.passwords msg.ID = none ∧ (s.conns c).closed = false ∧
      (step s e).1.passwords = mapSet s.passwords msg.ID msg.Password := by
  cases e with
  | disconnect c =>
    exfalso
    apply h
    by_cases hclosed : (s.conns c).closed = true
    · rw [step_disconnect_closed s c hclosed]
    · have hopen : (s.conns c).closed = false := by simpa using hclosed
      rw [step_disconnect_eq s c hopen, cleanup_passwords]
  | recv c msg now now2 =>
    by_cases hclosed : (s.conns c).closed = true
    · exfalso
      apply h
      rw [step_closed s c msg now now2 hclosed]
    · have hopen : (s.conns c).closed = false := by simpa using hclosed
      rw [step_recv_passwords s c msg now now2 hopen] at h ⊢
      rcases handle_passwords_cases s c msg now now2 with hp | ⟨hty, hnone, _, hp⟩
      · exact absurd hp h
      · exact ⟨c, msg, now, now2, rfl, hty, hnone, hopen, hp⟩

/-- C12. From any state, along any sequence of events: a secret stored for an
    id stays stored, with the same value, in every later state; a step changes
    the credential table only when it is a `client_hello` for an id that has no
    entry, and then by storing the secret presented under that id; and in the
    `client_hello` branch the write belongs to the secret check, which comes
    first and leaves the worker mapping as it was, while the registration that
    follows inserts the sender and leaves the credential table as it is. -/
theorem credentials_written_once (s : World) :
    (∀ (es : List Event) (k v : String), mapGet s.passwords k = some v →
      mapGet (run s es).passwords k = some v) ∧
    (∀ e : Event, (step s e).1.passwords ≠ s.passwords →
      ∃ c msg now now2, e = .recv c msg now now2 ∧ msg.MsgType = "client_hello" ∧
        mapGet s.passwords msg.ID = none ∧
        (step s e).1.passwords = mapSet s.passwords msg.ID msg.Password) ∧
    (∀ (c : Nat) (msg : Message),
      handleClientHello s c msg =
        match helloCheck s msg with
        | none => { world := s, returned := true }
        | some s1 => helloRegister s1 c msg) ∧
    (∀ (msg : Message) (s1 : World), helloCheck s msg = some s1 →
      s1.clients = s.clients ∧ s1.admins = s.admins ∧ s1.conns = s.conns ∧
      (s1.passwords = s.passwords ∨
        (mapGet s.passwords msg.ID = none ∧
          s1.passwords = mapSet s.passwords msg.ID msg.Password))) ∧
    (∀ (s1 : World) (c : Nat) (msg : Message),
      (helloRegister s1 c msg).world.passwords = s1.passwords ∧
      mapGet (helloRegister s1 c msg).world.clients msg.ID = some ⟨msg.ID, "client", c⟩) := by
  refine ⟨fun es k v h => run_passwords_some es s k v h, ?_, ?_, ?_, ?_⟩
  · intro e h
    obtain ⟨c, msg, now, now2, he, hty, hnone, _, hp⟩ := step_passwords_changed s e h
    exact ⟨c, msg, now, now2, he, hty, hnone, hp⟩
  · intro c msg
    exact handleClientHello_phases s c msg
  · intro msg s1 h
    obtain ⟨h1, h2, _, h4⟩ := helloCheck_frame s s1 msg h
    refine ⟨h1, h2, h4, ?_⟩
    unfold helloCheck at h
    cases hp : mapGet s.passwords msg.ID with
    | none =>
      rw [hp] at h
      simp only [Option.some.injEq] at h
      subst h
      exact Or.inr ⟨rfl, rfl⟩
    | some stored =>
      rw [hp] at h
      by_cases hne : stored ≠ msg.Password
      · simp [hne] at h
      · simp only [hne, if_false, Option.some.injEq] at h
        subst h
        exact Or.inl rfl
  · intro s1 c msg
    exact ⟨rfl, mapGet_mapSet_self _ _ _⟩

/-- C12 at a concrete input: the password of controller `a`, loaded at start,
    is still stored after a `client_hello` that presents another secret for
    `a` and one that provisions worker `w`. -/
theorem credentials_written_once_witness :
    mapGet (run (initWorld [("a", "pw")])
      [.recv 1 (helloMsg "a" "other") 10 10, .recv 2 (helloMsg "w" "s") 20 20]).passwords "a"
      = some "pw" :=
  (credentials_written_once (initWorld [("a", "pw")])).1
    [.recv 1 (helloMsg "a" "other") 10 10, .recv 2 (helloMsg "w" "s") 20 20] "a" "pw"
    (by decide)

/-! ## The keys of the two mappings along a run -/

theorem mapSet_keys {α : Type} (m : List (String × α)) (k : String) (v : α) :
    (mapSet m k v).map Prod.fst =
      if k ∈ m.map Prod.fst then m.map Prod.fst else m.map Prod.fst ++ [k] := by
  induction m with
  | nil => simp [mapSet]
  | cons e t ih =>
    obtain ⟨a, b⟩ := e
    by_cases h : a = k
    · subst h
      simp [mapSet]
    · have hne : ¬ k = a := fun hk => h hk.symm
      by_cases hmem : k ∈ t.map Prod.fst
      · rw [if_pos hmem] at ih
        simp only [mapSet, h, if_false, List.map_cons, ih]
        rw [if_pos (List.mem_cons_of_mem _ hmem)]
      · rw [if_neg hmem] at ih
        simp only [mapSet, h, if_false, List.map_cons, ih]
        rw [if_neg (by
          intro hk
          rcases List.mem_cons.mp hk with hk | hk
          · exact hne hk
          · exact hmem hk)]
        rfl

theorem mapSet_keysUnique {α : Type} (m : List (String × α)) (k : String) (v : α)
    (h : keysUnique m) : keysUnique (mapSet m k v) := by
  unfold keysUnique at h ⊢
  rw [mapSet_keys]
  by_cases hmem : k ∈ m.map Prod.fst
  · rw [if_pos hmem]; exact h
  · rw [if_neg hmem]
    rw [List.nodup_append]
    refine ⟨h, List.nodup_singleton k, ?_⟩
    intro a ha hb
    rw [List.mem_singleton] at hb
    subst hb
    exact hmem ha

theorem mapDel_keys_sublist {α : Type} (m : List (String × α)) (k : String) :
    ((mapDel m k).map Prod.fst).Sublist (m.map Prod.fst) := by
  induction m with
  | nil => simp [mapDel]
  | cons e t ih =>
    obtain ⟨a, b⟩ := e
    by_cases h : a = k
    · simp only [mapDel, h, if_true, List.map_cons]
      exact List.Sublist.cons _ (by simpa [h] using ih)
    · simp only [mapDel, h, if_false, List.map_cons]
      exact List.Sublist.cons₂ _ ih

theorem mapDel_keysUnique {α : Type} (m : List (String × α)) (k : String)
    (h : keysUnique m) : keysUnique (mapDel m k) := by
  unfold keysUnique at h ⊢
  exact List.Nodup.sublist (mapDel_keys_sublist m k) h

/-- In a map, an entry of the list is what a read of its key returns. -/
theorem mapGet_of_mem {α : Type} (m : List (String × α)) (h : keysUnique m)
    (k : String) (v : α) (hmem : (k, v) ∈ m) : mapGet m k = some v := by
  induction m with
  | nil => simp at hmem
  | cons e t ih =>
    obtain ⟨a, b⟩ := e
    unfold keysUnique at h
    simp only [List.map_cons, List.nodup_cons] at h
    obtain ⟨hnot, hnodup⟩ := h
    rcases List.mem_cons.mp hmem with heq | hin
    · simp only [Prod.mk.injEq] at heq
      obtain ⟨rfl, rfl⟩ := heq
      simp [mapGet]
    · have hk : k ∈ t.map Prod.fst := List.mem_map.mpr ⟨(k, v), hin, rfl⟩
      have hne : a ≠ k := fun hak => hnot (hak ▸ hk)
      simp only [mapGet, hne, if_false]
      exact ih hnodup hin

/-- What a read returns is an entry of the list. -/
theorem mem_of_mapGet {α : Type} (m : List (String × α)) (k : String) (v : α)
    (h : mapGet m k = some v) : (k, v) ∈ m := by
  induction m with
  | nil => simp [mapGet] at h
  | cons e t ih =>
    obtain ⟨a, b⟩ := e
    by_cases hk : a = k
    · simp only [mapGet, hk, if_true, Option.some.injEq] at h
      subst hk h
      exact List.mem_cons_self _ _
    · simp only [mapGet, hk, if_false] at h
      exact List.mem_cons_of_mem _ (ih h)

theorem handle_keysUnique (s : World) (c : Nat) (msg : Message) (now now2 : Nat)
    (h : keysUnique s.admins ∧ keysUnique s.clients) :
    keysUnique (handle s c msg now now2).world.admins ∧
    keysUnique (handle s c msg now now2).world.clients := by
  constructor
  · rcases handle_admins_cases s c msg now now2 with hs | ⟨_, _, _, _, hs⟩
    · rw [hs]; exact h.1
    · rw [hs]; exact mapSet_keysUnique _ _ _ h.1
  · rcases handle_clients_cases s c msg now now2 with hs | ⟨_, _, _, hs⟩ | ⟨_, _, _, hs⟩
    · rw [hs]; exact h.2
    · rw [hs]; exact mapSet_keysUnique _ _ _ h.2
    · rw [hs]; exact mapSet_keysUnique _ _ _ h.2

theorem cleanup_keysUnique (s : World) (c : Nat)
    (h : keysUnique s.admins ∧ keysUnique s.clients) :
    keysUnique (cleanup s c).1.admins ∧ keysUnique (cleanup s c).1.clients := by
  rw [cleanup_admins, cleanup_clients]
  cases (s.conns c).peer with
  | none => exact h
  | some q =>
    constructor
    · by_cases hr : q.Role = "admin"
      · simp only [hr, if_true]; exact mapDel_keysUnique _ _ h.1
      · simp only [hr, if_false]; exact h.1
    · by_cases hr : q.Role = "client"
      · simp only [hr, if_true]; exact mapDel_keysUnique _ _ h.2
      · simp only [hr, if_false]; exact h.2

theorem step_keysUnique (s : World) (e : Event)
    (h : keysUnique s.admins ∧ keysUnique s.clients) :
    keysUnique (step s e).1.admins ∧ keysUnique (step s e).1.clients := by
  cases e with
  | disconnect c =>
    by_cases hclosed : (s.conns c).closed = true
    · rw [step_disconnect_closed s c hclosed]; exact h
    · have hopen : (s.conns c).closed = false := by simpa using hclosed
      rw [step_disconnect_eq s c hopen]
      exact cleanup_keysUnique s c h
  | recv c msg now now2 =>
    by_cases hclosed : (s.conns c).closed = true
    · rw [step_closed s c msg now now2 hclosed]; exact h
    · have hopen : (s.conns c).closed = false := by simpa using hclosed
      rcases step_recv_shape s c msg now now2 hopen with ⟨_, hs⟩ | ⟨_, hs⟩
      · rw [hs]; exact handle_keysUnique s c msg now now2 h
      · rw [hs]; exact cleanup_keysUnique s c h

/-- In every state of a run from the start state, no id is twice a key of the
    same mapping. -/
theorem run_keysUnique (es : List Event) (s : World)
    (h : keysUnique s.admins ∧ keysUnique s.clients) :
    keysUnique (run s es).admins ∧ keysUnique (run s es).clients := by
  induction es generalizing s with
  | nil => exact h
  | cons e es ih => exact ih (step s e).1 (step_keysUnique s e h)

theorem initWorld_keysUnique (passwords : List (String × String)) :
    keysUnique (initWorld passwords).admins ∧ keysUnique (initWorld passwords).clients := by
  constructor <;> simp [keysUnique, initWorld]

/-! ## C13: the fan-out of a controller registration -/

/-- C13, refuted as stated. Connection 1 registers as worker `x`, then
    authenticates and registers as controller `a`: the `admin_attach` of that
    registration is written to connection 1, the connection of the registering
    controller, because the worker mapping still holds its entry `x`. -/
theorem admin_attach_to_controller_counterexample :
    ((run (initWorld [("a", "pw")]) [.recv 1 (registerMsg "x" "client") 10 10,
        .recv 1 (authMsg "a" "pw") 20 20]).conns 1).authenticated = true ∧
    (step (run (initWorld [("a", "pw")]) [.recv 1 (registerMsg "x" "client") 10 10,
        .recv 1 (authMsg "a" "pw") 20 20]) (.recv 1 (registerMsg "a" "admin") 30 30)).2
      = [(1, adminAttach "a")] ∧
    mapGet (step (run (initWorld [("a", "pw")]) [.recv 1 (registerMsg "x" "client") 10 10,
        .recv 1 (authMsg "a" "pw") 20 20]) (.recv 1 (registerMsg "a" "admin") 30 30)).1.admins
      "a" = some ⟨"a", "admin", 1⟩ := by
  decide

/-- C13, amended. In a state `s` of a run from the start state, a `register`
    with role `admin` and id A read from an open, authenticated connection `c`:
    the writes are exactly one `admin_attach` with id A per entry of the worker
    mapping (whose keys are distinct), each to the connection of its entry, and
    nothing else; afterwards the controller mapping maps A to `c` and the
    worker mapping is unchanged. No controller's connection is written to
    provided no connection of the worker mapping is `c` or the connection of a
    controller entry. -/
theorem admin_register_fanout (passwords : List (String × String)) (es : List Event)
    (s : World) (c : Nat) (msg : Message) (now now2 : Nat)
    (hs : s = run (initWorld passwords) es)
    (hopen : (s.conns c).closed = false) (hauth : (s.conns c).authenticated = true)
    (hty : msg.MsgType = "register") (hrole : msg.Role = "admin") :
    (step s (.recv c msg now now2)).2
      = s.clients.map (fun e => (e.2.Conn, adminAttach msg.ID)) ∧
    keysUnique s.clients ∧
    mapGet (step s (.recv c msg now now2)).1.admins msg.ID = some ⟨msg.ID, "admin", c⟩ ∧
    (step s (.recv c msg now now2)).1.clients = s.clients ∧
    ((∀ e ∈ s.clients, e.2.Conn ≠ c ∧ ∀ k p, mapGet s.admins k = some p → e.2.Conn ≠ p.Conn) →
      ∀ x ∈ (step s (.recv c msg now now2)).2, ∀ k p,
        mapGet (step s (.recv c msg now now2)).1.admins k = some p → x.1 ≠ p.Conn) := by
  have hh : handle s c msg now now2 = _ :=
    (handle_register s c msg now now2 hty).trans (handleRegister_admin_ok s c msg hrole hauth)
  have hstep := step_recv_continue s c msg now now2 hopen (by rw [hh])
  have hkeys : keysUnique s.clients := by
    rw [hs]
    exact (run_keysUnique es _ (initWorld_keysUnique passwords)).2
  rw [hstep, hh]
  refine ⟨rfl, hkeys, ?_, rfl, ?_⟩
  · show mapGet (mapSet s.admins msg.ID ⟨msg.ID, msg.Role, c⟩) msg.ID = _
    rw [mapGet_mapSet_self, hrole]
  · intro hdisj x hx k p hget
    obtain ⟨e, he, rfl⟩ := List.mem_map.mp hx
    obtain ⟨hc, hadm⟩ := hdisj e he
    have hget' : mapGet (mapSet s.admins msg.ID ⟨msg.ID, msg.Role, c⟩) k = some p := hget
    rw [mapGet_mapSet] at hget'
    by_cases hk : msg.ID = k
    · rw [if_pos hk] at hget'
      have hp : p = ⟨msg.ID, msg.Role, c⟩ := (Option.some.inj hget').symm
      rw [hp]
      exact hc
    · rw [if_neg hk] at hget'
      exact hadm k p hget'

/-- C13, amended, at a concrete input: with worker `w` on connection 1,
    controller `b` registering on the authenticated connection 2 of the example
    causes one `admin_attach` for `b`, written to connection 1. -/
theorem admin_register_fanout_witness :
    (step demoWorld (.recv 2 (registerMsg "b" "admin") 40 40)).2 = [(1, adminAttach "b")] ∧
    mapGet (step demoWorld (.recv 2 (registerMsg "b" "admin") 40 40)).1.admins "b"
      = some ⟨"b", "admin", 2⟩ :=
  ⟨(admin_register_fanout [("a", "pw")]
      [.recv 1 (helloMsg "w" "s") 10 10, .recv 2 (authMsg "a" "pw") 20 20,
       .recv 2 (registerMsg "a" "admin") 30 30]
      demoWorld 2 (registerMsg "b" "admin") 40 40 rfl (by decide) (by decide) (by decide)
      (by decide)).1,
   (admin_register_fanout [("a", "pw")]
      [.recv 1 (helloMsg "w" "s") 10 10, .recv 2 (authMsg "a" "pw") 20 20,
       .recv 2 (registerMsg "a" "admin") 30 30]
      demoWorld 2 (registerMsg "b" "admin") 40 40 rfl (by decide) (by decide) (by decide)
      (by decide)).2.2.1⟩

/-! ## C14: the fan-out of a worker disconnect -/

/-- The cleanup of a connection whose peer has role `client`. -/
theorem cleanup_client (s : World) (c : Nat) (p : Peer)
    (hpeer : (s.conns c).peer = some p) (hrole : p.Role = "client") :
    (cleanup s c).2 = s.admins.map (fun e => (e.2.Conn, sessionClosed p.ID)) ∧
    (cleanup s c).1.admins = s.admins ∧
    (cleanup s c).1.clients = mapDel s.clients p.ID := by
  have hna : ¬ p.Role = "admin" := by rw [hrole]; decide
  refine ⟨?_, ?_, ?_⟩
  · simp [cleanup, hpeer, hrole, sessionClosed]
  · rw [cleanup_admins, hpeer]
    simp [hna]
  · rw [cleanup_clients, hpeer]
    simp [hrole]

/-- C14, refuted as stated. Worker `w` is registered on connection 1;
    connection 2 registered as worker `x` and then, authenticated, as controller
    `a`. When connection 1 disconnects, the `session_closed` for `w` is written
    to connection 2, which is the connection of worker `x` in the worker
    mapping. -/
theorem session_closed_to_worker_counterexample :
    ((run (initWorld [("a", "pw")]) [.recv 1 (helloMsg "w" "s") 10 10,
        .recv 2 (registerMsg "x" "client") 20 20, .recv 2 (authMsg "a" "pw") 30 30,
        .recv 2 (registerMsg "a" "admin") 40 40]).conns 1).peer = some ⟨"w", "client", 1⟩ ∧
    mapGet (run (initWorld [("a", "pw")]) [.recv 1 (helloMsg "w" "s") 10 10,
        .recv 2 (registerMsg "x" "client") 20 20, .recv 2 (authMsg "a" "pw") 30 30,
        .recv 2 (registerMsg "a" "admin") 40 40]).clients "w" = some ⟨"w", "client", 1⟩ ∧
    mapGet (run (initWorld [("a", "pw")]) [.recv 1 (helloMsg "w" "s") 10 10,
        .recv 2 (registerMsg "x" "client") 20 20, .recv 2 (authMsg "a" "pw") 30 30,
        .recv 2 (registerMsg "a" "admin") 40 40]).clients "x" = some ⟨"x", "client", 2⟩ ∧
    (step (run (initWorld [("a", "pw")]) [.recv 1 (helloMsg "w" "s") 10 10,
        .recv 2 (registerMsg "x" "client") 20 20, .recv 2 (authMsg "a" "pw") 30 30,
        .recv 2 (registerMsg "a" "admin") 40 40]) (.disconnect 1)).2
      = [(2, sessionClosed "w")] ∧
    mapGet (step (run (initWorld [("a", "pw")]) [.recv 1 (helloMsg "w" "s") 10 10,
        .recv 2 (registerMsg "x" "client") 20 20, .recv 2 (authMsg "a" "pw") 30 30,
        .recv 2 (registerMsg "a" "admin") 40 40]) (.disconnect 1)).1.clients "x"
      = some ⟨"x", "client", 2⟩ := by
  decide

/-- C14, amended. In a state `s` of a run from the start state, when an open
    connection `c` that is registered as worker W1 with role `client` (it holds
    that peer, and the worker mapping maps W1 to it) terminates: the writes
    are exactly one `session_closed` with client_id W1
    per entry of the controller mapping (whose keys are distinct), each to the
    connection of its entry, and nothing else; afterwards W1 is not a key of
    the worker mapping, the controller mapping is unchanged and the connection
    is closed. No worker's connection is written to provided no connection of
    the controller mapping is the connection of a worker entry. -/
theorem worker_disconnect_fanout (passwords : List (String × String)) (es : List Event)
    (s : World) (c : Nat) (p : Peer) (W1 : String)
    (hs : s = run (initWorld passwords) es)
    (hopen : (s.conns c).closed = false)
    (hpeer : (s.conns c).peer = some p) (hid : p.ID = W1) (hrole : p.Role = "client")
    (hentry : mapGet s.clients W1 = some p) (hconn : p.Conn = c) :
    mapGet s.clients W1 = some ⟨W1, "client", c⟩ ∧
    (step s (.disconnect c)).2 = s.admins.map (fun e => (e.2.Conn, sessionClosed W1)) ∧
    keysUnique s.admins ∧
    mapGet (step s (.disconnect c)).1.clients W1 = none ∧
    (step s (.disconnect c)).1.admins = s.admins ∧
    ((step s (.disconnect c)).1.conns c).closed = true ∧
    ((∀ e ∈ s.admins, ∀ k w, mapGet s.clients k = some w → e.2.Conn ≠ w.Conn) →
      ∀ x ∈ (step s (.disconnect c)).2, ∀ k w, mapGet s.clients k = some w → x.1 ≠ w.Conn) := by
  subst hid
  obtain ⟨h1, h2, h3⟩ := cleanup_client s c p hpeer hrole
  have hkeys : keysUnique s.admins := by
    rw [hs]
    exact (run_keysUnique es _ (initWorld_keysUnique passwords)).1
  have hp : p = ⟨p.ID, "client", c⟩ := by
    cases p
    simp only at hrole hconn
    rw [hrole, hconn]
  rw [step_disconnect_eq s c hopen]
  refine ⟨by rw [hentry]; exact congrArg some hp, h1, hkeys, ?_, h2, cleanup_closed s c, ?_⟩
  · rw [h3, mapGet_mapDel, if_pos rfl]
  · intro hdisj x hx k w hget
    rw [h1] at hx
    obtain ⟨e, he, rfl⟩ := List.mem_map.mp hx
    exact hdisj e he k w hget

/-- C14, amended, at a concrete input: when worker `w` of the example
    disconnects, one `session_closed` for `w` is written to connection 2 of
    controller `a`, and `w` is no key of the worker mapping any more. -/
theorem worker_disconnect_fanout_witness :
    (step demoWorld (.disconnect 1)).2 = [(2, sessionClosed "w")] ∧
    mapGet (step demoWorld (.disconnect 1)).1.clients "w" = none :=
  ⟨(worker_disconnect_fanout [("a", "pw")]
      [.recv 1 (helloMsg "w" "s") 10 10, .recv 2 (authMsg "a" "pw") 20 20,
       .recv 2 (registerMsg "a" "admin") 30 30]
      demoWorld 1 ⟨"w", "client", 1⟩ "w" rfl (by decide) (by decide) (by decide)
      (by decide) (by decide) (by decide)).2.1,
   (worker_disconnect_fanout [("a", "pw")]
      [.recv 1 (helloMsg "w" "s") 10 10, .recv 2 (authMsg "a" "pw") 20 20,
       .recv 2 (registerMsg "a" "admin") 30 30]
      demoWorld 1 ⟨"w", "client", 1⟩ "w" rfl (by decide) (by decide) (by decide)
      (by decide) (by decide) (by decide)).2.2.2.1⟩

/-! ## C15: the catch-up of a worker that says hello -/

/-- C15, refuted as stated. Connection 1 authenticated and registered as
    controller `a`; its own `client_hello` for `w` is accepted, and the
    `admin_attach` of that step is written to connection 1, which is the
    connection of controller `a` in the controller mapping. -/
theorem hello_attach_to_controller_counterexample :
    mapGet (run (initWorld [("a", "pw")]) [.recv 1 (authMsg "a" "pw") 10 10,
        .recv 1 (registerMsg "a" "admin") 20 20]).admins "a" = some ⟨"a", "admin", 1⟩ ∧
    (step (run (initWorld [("a", "pw")]) [.recv 1 (authMsg "a" "pw") 10 10,
        .recv 1 (registerMsg "a" "admin") 20 20]) (.recv 1 (helloMsg "w" "s") 30 30)).2
      = [(1, adminAttach "a")] ∧
    mapGet (step (run (initWorld [("a", "pw")]) [.recv 1 (authMsg "a" "pw") 10 10,
        .recv 1 (registerMsg "a" "admin") 20 20]) (.recv 1 (helloMsg "w" "s") 30 30)).1.admins
      "a" = some ⟨"a", "admin", 1⟩ := by
  decide

/-- C15, amended. In a state `s` of a run from the start state, a
    `client_hello` read from an open connection `c` whose secret check passes:
    the writes are exactly one `admin_attach` per key C of the controller
    mapping (whose keys are distinct), with id C, every one of them to `c` and
    none to any other connection. -/
theorem hello_catch_up (passwords : List (String × String)) (es : List Event)
    (s : World) (c : Nat) (msg : Message) (now now2 : Nat)
    (hs : s = run (initWorld passwords) es)
    (hopen : (s.conns c).closed = false)
    (hty : msg.MsgType = "client_hello") (hacc : secretAccepted s msg) :
    (step s (.recv c msg now now2)).2 = s.admins.map (fun e => (c, adminAttach e.1)) ∧
    keysUnique s.admins ∧
    (∀ x ∈ (step s (.recv c msg now now2)).2, x.1 = c) := by
  have hh : handle s c msg now now2 = _ :=
    (handle_client_hello s c msg now now2 hty).trans (handleClientHello_accepted s c msg hacc)
  have hstep := step_recv_continue s c msg now now2 hopen (by rw [hh])
  have hkeys : keysUnique s.admins := by
    rw [hs]
    exact (run_keysUnique es _ (initWorld_keysUnique passwords)).1
  have hwf : RegistryWellFormed s := by
    rw [hs]
    exact run_wellFormed es _ (initWorld_wellFormed passwords)
  have hsent : s.admins.map (fun e => ((c, { MsgType := "admin_attach", ID := e.2.ID }) : Sent))
      = s.admins.map (fun e => (c, adminAttach e.1)) := by
    apply List.map_congr_left
    intro e he
    have hget : mapGet s.admins e.1 = some e.2 := mapGet_of_mem s.admins hkeys e.1 e.2 he
    have hid : e.2.ID = e.1 := (hwf.1 e.1 e.2 hget).1
    simp [adminAttach, hid]
  rw [hstep, hh]
  refine ⟨hsent, hkeys, ?_⟩
  intro x hx
  have hx' : x ∈ s.admins.map
      (fun e => ((c, { MsgType := "admin_attach", ID := e.2.ID }) : Sent)) := hx
  obtain ⟨e, _, rfl⟩ := List.mem_map.mp hx'
  rfl

/-- C15, amended, at a concrete input: a new worker saying hello on connection
    3 of the example is sent one `admin_attach` for controller `a`. -/
theorem hello_catch_up_witness :
    (step demoWorld (.recv 3 (helloMsg "v" "t") 40 40)).2 = [(3, adminAttach "a")] :=
  (hello_catch_up [("a", "pw")]
    [.recv 1 (helloMsg "w" "s") 10 10, .recv 2 (authMsg "a" "pw") 20 20,
     .recv 2 (registerMsg "a" "admin") 30 30]
    demoWorld 3 (helloMsg "v" "t") 40 40 rfl (by decide) (by decide) (by decide)).1

/-! ## C18: where the credentials an `auth` accepts come from -/

/-- Every secret the table holds after a run was in the table at the start of
    the run or was provisioned during it by a `client_hello`. -/
theorem passwords_provenance (es : List Event) (s0 : World) (k v : String)
    (h : mapGet (run s0 es).passwords k = some v) :
    mapGet s0.passwords k = some v ∨ ProvisionedIn s0 es k v := by
  induction es generalizing s0 with
  | nil => exact Or.inl h
  | cons e es ih =>
    rcases ih (step s0 e).1 h with h1 | ⟨es1, c, msg, now, now2, es2, hes, hty, hid, hpw, hnone, ho⟩
    · by_cases hold : mapGet s0.passwords k = some v
      · exact Or.inl hold
      · right
        have hchg : (step s0 e).1.passwords ≠ s0.passwords := by
          intro heq
          rw [heq] at h1
          exact hold h1
        obtain ⟨c, msg, now, now2, he, hty, hnone, hopen, hp⟩ :=
          step_passwords_changed s0 e hchg
        rw [hp, mapGet_mapSet] at h1
        by_cases hk : msg.ID = k
        · rw [if_pos hk] at h1
          refine ⟨[], c, msg, now, now2, es, by rw [he]; rfl, hty, hk,
            Option.some.inj h1, ?_, hopen⟩
          rw [← hk]
          exact hnone
        · rw [if_neg hk] at h1
          exact absurd h1 hold
    · exact Or.inr ⟨e :: es1, c, msg, now, now2, es2, by rw [hes]; rfl, hty, hid, hpw,
        hnone, ho⟩

/-- An `auth` answered with `auth_ok` presented the password line 141 compares
    with. -/
theorem auth_ok_stored (s : World) (c : Nat) (msg : Message) (now now2 : Nat)
    (hopen : (s.conns c).closed = false) (hty : msg.MsgType = "auth")
    (hok : (step s (.recv c msg now now2)).2 = [(c, { MsgType := "auth_ok" })]) :
    storedPassword s msg.ClientID = msg.Password := by
  have hh := handle_auth s c msg now now2 hty
  have hstep := step_recv_continue s c msg now now2 hopen
    (by rw [hh]; exact handleAuth_returned s c msg now now2)
  rw [hstep, hh, handleAuth_eq] at hok
  by_cases h1 : now < (authRecord s msg.ClientID).Blocked
  · rw [if_pos h1] at hok
    simp at hok
  · rw [if_neg h1] at hok
    by_cases h2 : storedPassword s msg.ClientID ≠ msg.Password
    · rw [if_pos h2] at hok
      simp at hok
    · simpa using h2

/-- C18, refuted as stated. The table loaded at start holds only the password
    of `a`. An `auth` presenting (`evil`, `x`) fails in the start state; after
    a single `client_hello` that provisions the secret `x` for the worker id
    `evil`, the same `auth` is answered `auth_ok` and its connection is marked
    authenticated. -/
theorem hello_grants_auth_counterexample :
    mapGet (initWorld [("a", "pw")]).passwords "evil" = none ∧
    (step (initWorld [("a", "pw")]) (.recv 2 (authMsg "evil" "x") 20 20)).2
      = [(2, mismatchReply)] ∧
    (step (run (initWorld [("a", "pw")]) [.recv 1 (helloMsg "evil" "x") 10 10])
      (.recv 2 (authMsg "evil" "x") 20 20)).2 = [(2, { MsgType := "auth_ok" })] ∧
    ((step (run (initWorld [("a", "pw")]) [.recv 1 (helloMsg "evil" "x") 10 10])
      (.recv 2 (authMsg "evil" "x") 20 20)).1.conns 2).authenticated = true := by
  decide

/-- C18, amended. In a state `s` of a run from the start state, an `auth` that
    is answered `auth_ok` and whose identity has an entry in the credential
    table (or whose password is not empty) presents the password stored for
    its identity in `s`; and that entry was either in the table loaded at
    process start or provisioned during the run by a `client_hello` for that id
    carrying that secret. Controllers and workers share the one table. -/
theorem auth_ok_credential_provenance (passwords : List (String × String))
    (es : List Event) (s : World) (c : Nat) (msg : Message) (now now2 : Nat)
    (hs : s = run (initWorld passwords) es)
    (hopen : (s.conns c).closed = false) (hty : msg.MsgType = "auth")
    (hok : (step s (.recv c msg now now2)).2 = [(c, { MsgType := "auth_ok" })])
    (hreal : msg.Password ≠ "" ∨ mapGet s.passwords msg.ClientID ≠ none) :
    mapGet s.passwords msg.ClientID = some msg.Password ∧
    (mapGet passwords msg.ClientID = some msg.Password ∨
      ProvisionedIn (initWorld passwords) es msg.ClientID msg.Password) := by
  have hsp := auth_ok_stored s c msg now now2 hopen hty hok
  have hget : mapGet s.passwords msg.ClientID = some msg.Password := by
    unfold storedPassword at hsp
    cases hp : mapGet s.passwords msg.ClientID with
    | none =>
      rw [hp] at hsp
      simp only [Option.getD_none] at hsp
      rcases hreal with h | h
      · exact absurd hsp.symm h
      · exact absurd hp h
    | some v =>
      rw [hp] at hsp
      simp only [Option.getD_some] at hsp
      rw [hsp]
  refine ⟨hget, ?_⟩
  rw [hs] at hget
  exact passwords_provenance es (initWorld passwords) _ _ hget

/-- C18, amended, at a concrete input: the `auth` of controller `a` with its
    password, accepted after an unrelated `client_hello`, presents an entry of
    the table loaded at start. -/
theorem auth_ok_credential_provenance_witness :
    mapGet (run (initWorld [("a", "pw")]) [.recv 1 (helloMsg "w" "s") 10 10]).passwords "a"
      = some "pw" ∧
    (mapGet [("a", "pw")] "a" = some "pw" ∨
      ProvisionedIn (initWorld [("a", "pw")]) [.recv 1 (helloMsg "w" "s") 10 10] "a" "pw") :=
  auth_ok_credential_provenance [("a", "pw")] [.recv 1 (helloMsg "w" "s") 10 10]
    (run (initWorld [("a", "pw")]) [.recv 1 (helloMsg "w" "s") 10 10]) 2 (authMsg "a" "pw")
    20 20 rfl (by decide) (by decide) (by decide) (Or.inl (by decide))

/-! ## C19: an `auth` for an identity without password -/

/-- An `auth` for an identity that has no entry in the credential table and
    that presents a password other than the empty string is answered
    `auth_fail` and leaves the `authenticated` flag as it was. -/
theorem auth_unknown_identity_nonempty_rejected (s : World) (c : Nat) (msg : Message)
    (now now2 : Nat)
    (hopen : (s.conns c).closed = false) (hty : msg.MsgType = "auth")
    (habsent : mapGet s.passwords msg.ClientID = none) (hpw : msg.Password ≠ "") :
    ((step s (.recv c msg now now2)).2 = [(c, lockoutReply)] ∨
      (step s (.recv c msg now now2)).2 = [(c, mismatchReply)]) ∧
    ((step s (.recv c msg now now2)).1.conns c).authenticated = (s.conns c).authenticated := by
  by_cases hlock : now < (authRecord s msg.ClientID).Blocked
  · rw [step_auth_locked s c msg now now2 hopen hty hlock]
    exact ⟨Or.inl rfl, rfl⟩
  · have hfree : (authRecord s msg.ClientID).Blocked ≤ now := Nat.not_lt.mp hlock
    have hne : storedPassword s msg.ClientID ≠ msg.Password := by
      unfold storedPassword
      rw [habsent]
      exact fun h => hpw h.symm
    obtain ⟨h1, _, _, h4⟩ := step_auth_mismatch s c msg now now2 hopen hty hfree hne
    exact ⟨Or.inr h1, by rw [h4]⟩

/-- C19 at its failing input. The credential table has no entry for `ghost`
    and none for the empty identity. An `auth` for `ghost` with the empty
    password, and an `auth` message with no field but its type, are both
    answered `auth_ok` and mark their connection authenticated; connection 1
    can then register as a controller. -/
theorem auth_ok_without_stored_password :
    mapGet (initWorld [("a", "pw")]).passwords "ghost" = none ∧
    mapGet (initWorld [("a", "pw")]).passwords "" = none ∧
    (step (initWorld [("a", "pw")]) (.recv 1 (authMsg "ghost" "") 10 10)).2
      = [(1, { MsgType := "auth_ok" })] ∧
    ((step (initWorld [("a", "pw")]) (.recv 1 (authMsg "ghost" "") 10 10)).1.conns
      1).authenticated = true ∧
    (step (initWorld [("a", "pw")]) (.recv 2 { MsgType := "auth" } 10 10)).2
      = [(2, { MsgType := "auth_ok" })] ∧
    ((step (initWorld [("a", "pw")]) (.recv 2 { MsgType := "auth" } 10 10)).1.conns
      2).authenticated = true ∧
    mapGet (run (initWorld [("a", "pw")]) [.recv 1 (authMsg "ghost" "") 10 10,
      .recv 1 (registerMsg "ghost" "admin") 20 20]).admins "ghost"
      = some ⟨"ghost", "admin", 1⟩ := by
  decide

/-! ## C20: the cleanup of a superseded connection -/

/-- C20 at its failing input. Controller `a` is registered on connection 3.
    Worker `w` says hello on connection 1 and then again, with the same secret,
    on connection 2, which takes over the entry of `w`. When connection 1
    terminates, its cleanup deletes the entry of `w`, which referred to the
    open connection 2, and tells the controller that the session of `w` is
    closed. -/
theorem stale_disconnect_removes_new_entry :
    mapGet (run (initWorld [("a", "pw")]) [.recv 3 (authMsg "a" "pw") 10 10,
        .recv 3 (registerMsg "a" "admin") 20 20, .recv 1 (helloMsg "w" "s") 30 30,
        .recv 2 (helloMsg "w" "s") 40 40]).clients "w" = some ⟨"w", "client", 2⟩ ∧
    ((run (initWorld [("a", "pw")]) [.recv 3 (authMsg "a" "pw") 10 10,
        .recv 3 (registerMsg "a" "admin") 20 20, .recv 1 (helloMsg "w" "s") 30 30,
        .recv 2 (helloMsg "w" "s") 40 40]).conns 1).closed = false ∧
    mapGet (step (run (initWorld [("a", "pw")]) [.recv 3 (authMsg "a" "pw") 10 10,
        .recv 3 (registerMsg "a" "admin") 20 20, .recv 1 (helloMsg "w" "s") 30 30,
        .recv 2 (helloMsg "w" "s") 40 40]) (.disconnect 1)).1.clients "w" = none ∧
    ((step (run (initWorld [("a", "pw")]) [.recv 3 (authMsg "a" "pw") 10 10,
        .recv 3 (registerMsg "a" "admin") 20 20, .recv 1 (helloMsg "w" "s") 30 30,
        .recv 2 (helloMsg "w" "s") 40 40]) (.disconnect 1)).1.conns 2).closed = false ∧
    ((step (run (initWorld [("a", "pw")]) [.recv 3 (authMsg "a" "pw") 10 10,
        .recv 3 (registerMsg "a" "admin") 20 20, .recv 1 (helloMsg "w" "s") 30 30,
        .recv 2 (helloMsg "w" "s") 40 40]) (.disconnect 1)).1.conns 2).peer
      = some ⟨"w", "client", 2⟩ ∧
    (step (run (initWorld [("a", "pw")]) [.recv 3 (authMsg "a" "pw") 10 10,
        .recv 3 (registerMsg "a" "admin") 20 20, .recv 1 (helloMsg "w" "s") 30 30,
        .recv 2 (helloMsg "w" "s") 40 40]) (.disconnect 1)).2 = [(3, sessionClosed "w")] := by
  decide

/-- What the cleanup does guarantee: it deletes at most the key that is the id
    of the closing connection's own peer, so every entry under another key is
    still present and unchanged. -/
theorem cleanup_keeps_other_keys (s : World) (c : Nat) (k : String) (p : Peer)
    (hkey : ∀ q, (s.conns c).peer = some q → q.ID ≠ k) :
    (mapGet s.admins k = some p → mapGet (cleanup s c).1.admins k = some p) ∧
    (mapGet s.clients k = some p → mapGet (cleanup s c).1.clients k = some p) := by
  constructor
  · intro h
    rcases cleanup_admins_kept s c k p h with hk | ⟨q, hq, hid, _⟩
    · exact hk
    · exact absurd hid (hkey q hq)
  · intro h
    rcases cleanup_clients_kept s c k p h with hk | ⟨q, hq, hid, _⟩
    · exact hk
    · exact absurd hid (hkey q hq)

end Relay
